import Mathlib

/-!
# fhir-worker: the message processing pipeline of `main.go`

A shallow embedding of `getDatabaseName`, `getDbClient`, `saveResource`,
`consumeMessage` and one iteration of the `processResources` loop.

The Go program talks to three outside parties (the SQS queue, the MongoDB
server, the wall clock).  They are modelled by `Env`: the answer each of
them gives to the call made at a given `tick`, the running count of calls
already answered.  Everything the program does to the outside is recorded,
in order, in `World.trace`.

`encoding/json` and `time` are library code; the part of their behaviour
that `json.Unmarshal(..., &fhirMsg)` exercises is modelled in the first
half of the file (JSON grammar, key matching against the struct tags,
timestamps as `time.Parse` reads them).  The reader of timestamps is a
parameter of the decoder, supplied by `Env`.
-/

namespace FhirWorker

set_option maxRecDepth 100000

/-! ## Data model (`main.go` lines 23-66) -/

/-- A `time.Time`, kept as the civil fields that were read plus the zone offset in seconds. -/
structure Time where
  year : Nat
  month : Nat
  day : Nat
  hour : Nat
  minute : Nat
  second : Nat
  nsec : Nat
  offset : Int
deriving DecidableEq, Repr

/-- The zero `time.Time`: January 1, year 1, 00:00:00 UTC. -/
def Time.zero : Time := ⟨1, 1, 1, 0, 0, 0, 0, 0⟩

/-- Go struct `Period`, tags `start` and `end`. -/
structure Period where
  Start : Time
  End : Time
deriving DecidableEq, Repr

/-- Go struct `Encounter`. -/
structure Encounter where
  FhirId : String
  FullUrl : String
  Status : String
  Class : String
  Period : Period
  PractitionerId : String
  PatientId : String
deriving DecidableEq, Repr

/-- Go struct `Practitioner`. -/
structure Practitioner where
  FhirId : String
  GivenName : String
  FamilyName : String
deriving DecidableEq, Repr

/-- Go struct `Patient`. -/
structure Patient where
  FhirId : String
  GivenName : String
  FamilyName : String
  BirthDate : String
  Gender : String
deriving DecidableEq, Repr

/-- Go struct `FHIRMessage`. -/
structure FHIRMessage where
  Encounter : Encounter
  Practitioner : Practitioner
  Patient : Patient
deriving DecidableEq, Repr

/-- The zero value of `Period`. -/
def Period.zero : Period := ⟨Time.zero, Time.zero⟩

/-- The zero value of `Encounter`. -/
def Encounter.zero : Encounter := ⟨"", "", "", "", Period.zero, "", ""⟩

/-- The zero value of `Practitioner`. -/
def Practitioner.zero : Practitioner := ⟨"", "", ""⟩

/-- The zero value of `Patient`. -/
def Patient.zero : Patient := ⟨"", "", "", "", ""⟩

/-- The zero value of `FHIRMessage`, what `var fhirMsg FHIRMessage` declares. -/
def FHIRMessage.zero : FHIRMessage := ⟨Encounter.zero, Practitioner.zero, Patient.zero⟩

/-! ## Tenant routing (`main.go` lines 91-100) -/

/-- Go `getDatabaseName`: a `switch` on the routing key with a `default` branch. -/
def getDatabaseName (messageGroupId : String) : String :=
  match messageGroupId with
  | "001" => "fhir_hca"
  | "002" => "fhir_hcb"
  | _ => ""

/-! ## JSON text (the grammar accepted by `encoding/json`) -/

/-- A parsed JSON value.  A string keeps both its raw text between the quotes
and its unescaped contents; a number keeps nothing, no field of the message is numeric. -/
inductive Json where
  | null
  | bool (b : Bool)
  | num
  | str (raw : List Char) (val : List Char)
  | arr (items : List Json)
  | obj (members : List (List Char × Json))

/-- Character constants of the grammar. -/
def chQuote : Char := Char.ofNat 34
/-- Reverse solidus. -/
def chBackslash : Char := Char.ofNat 92
/-- Opening brace. -/
def chLBrace : Char := Char.ofNat 123
/-- Closing brace. -/
def chRBrace : Char := Char.ofNat 125
/-- Opening bracket. -/
def chLBracket : Char := Char.ofNat 91
/-- Closing bracket. -/
def chRBracket : Char := Char.ofNat 93

/-- JSON insignificant whitespace: space, tab, carriage return, line feed. -/
def isSpace (c : Char) : Bool :=
  c.toNat = 32 || c.toNat = 9 || c.toNat = 13 || c.toNat = 10

/-- Drop leading whitespace. -/
def skipWs : List Char → List Char
  | [] => []
  | c :: cs => if isSpace c then skipWs cs else c :: cs

/-- Decimal digit test. -/
def isDigit (c : Char) : Bool := 48 ≤ c.toNat && c.toNat ≤ 57

/-- Value of a hexadecimal digit. -/
def hexVal (c : Char) : Option Nat :=
  let n := c.toNat
  if 48 ≤ n && n ≤ 57 then some (n - 48)
  else if 97 ≤ n && n ≤ 102 then some (n - 87)
  else if 65 ≤ n && n ≤ 70 then some (n - 55)
  else none

/-- Value of four hexadecimal digits. -/
def hex4 (a b c d : Char) : Option Nat :=
  match hexVal a, hexVal b, hexVal c, hexVal d with
  | some x, some y, some z, some w => some (((x * 16 + y) * 16 + z) * 16 + w)
  | _, _, _, _ => none

/-- The character a `\uXXXX` escape stands for; a lone surrogate becomes U+FFFD. -/
def runeOfEscape (v : Nat) : Char :=
  if 55296 ≤ v && v < 57344 then Char.ofNat 65533 else Char.ofNat v

/-- The character a one-letter escape stands for. -/
def simpleEscape (c : Char) : Option Char :=
  let n := c.toNat
  if n = 34 then some (Char.ofNat 34)
  else if n = 92 then some (Char.ofNat 92)
  else if n = 47 then some (Char.ofNat 47)
  else if n = 98 then some (Char.ofNat 8)
  else if n = 102 then some (Char.ofNat 12)
  else if n = 110 then some (Char.ofNat 10)
  else if n = 114 then some (Char.ofNat 13)
  else if n = 116 then some (Char.ofNat 9)
  else none

/-- One unit of a string body: a character written as itself or through a
one-letter escape, or the 16-bit value of a `\uXXXX` escape. -/
inductive StrUnit where
  | lit (c : Char)
  | esc (v : Nat)

/-- Read a string body up to its closing quote: raw text, units, rest of input. -/
def parseStringBody : List Char → Option (List Char × List StrUnit × List Char)
  | [] => none
  | c :: cs =>
    if c = chQuote then some ([], [], cs)
    else if c.toNat < 32 then none
    else if c = chBackslash then
      match cs with
      | [] => none
      | e :: cs1 =>
        if e.toNat = 117 then
          match cs1 with
          | h1 :: h2 :: h3 :: h4 :: cs2 =>
            match hex4 h1 h2 h3 h4 with
            | none => none
            | some v =>
              match parseStringBody cs2 with
              | none => none
              | some (raw, us, rest) =>
                some (c :: e :: h1 :: h2 :: h3 :: h4 :: raw, StrUnit.esc v :: us, rest)
          | _ => none
        else
          match simpleEscape e with
          | none => none
          | some d =>
            match parseStringBody cs1 with
            | none => none
            | some (raw, us, rest) => some (c :: e :: raw, StrUnit.lit d :: us, rest)
    else
      match parseStringBody cs with
      | none => none
      | some (raw, us, rest) => some (c :: raw, StrUnit.lit c :: us, rest)

/-- Turn units into characters.  A high surrogate escape directly followed by a low
surrogate escape is one character; any other surrogate escape is U+FFFD.
`pending` is a high surrogate escape read just before. -/
def unquoteUnits : Option Nat → List StrUnit → List Char
  | none, [] => []
  | some _, [] => [Char.ofNat 65533]
  | none, StrUnit.lit c :: us => c :: unquoteUnits none us
  | some _, StrUnit.lit c :: us => Char.ofNat 65533 :: c :: unquoteUnits none us
  | none, StrUnit.esc v :: us =>
    if 55296 ≤ v && v < 56320 then unquoteUnits (some v) us
    else runeOfEscape v :: unquoteUnits none us
  | some hi, StrUnit.esc v :: us =>
    if 56320 ≤ v && v < 57344 then
      Char.ofNat (65536 + (hi - 55296) * 1024 + (v - 56320)) :: unquoteUnits none us
    else if 55296 ≤ v && v < 56320 then Char.ofNat 65533 :: unquoteUnits (some v) us
    else Char.ofNat 65533 :: runeOfEscape v :: unquoteUnits none us

/-- Read a string after its opening quote: raw text, unescaped text, rest of input. -/
def parseString (cs : List Char) : Option (List Char × List Char × List Char) :=
  match parseStringBody cs with
  | none => none
  | some (raw, us, rest) => some (raw, unquoteUnits none us, rest)

/-- Drop leading decimal digits. -/
def skipDigits : List Char → List Char
  | [] => []
  | c :: cs => if isDigit c then skipDigits cs else c :: cs

/-- One or more digits, then the rest. -/
def digits1 : List Char → Option (List Char)
  | [] => none
  | c :: cs => if isDigit c then some (skipDigits cs) else none

/-- The optional fraction and exponent of a number. -/
def parseNumberTail (cs : List Char) : Option (List Char) :=
  let afterFrac : Option (List Char) :=
    match cs with
    | c :: cs1 => if c.toNat = 46 then digits1 cs1 else some cs
    | [] => some cs
  match afterFrac with
  | none => none
  | some cs2 =>
    match cs2 with
    | e :: cs3 =>
      if e.toNat = 101 || e.toNat = 69 then
        match cs3 with
        | s :: cs4 => if s.toNat = 43 || s.toNat = 45 then digits1 cs4 else digits1 cs3
        | [] => none
      else some cs2
    | [] => some cs2

/-- The integer part of a number after an optional minus sign, then its tail. -/
def parseNumberBody : List Char → Option (List Char)
  | [] => none
  | c :: cs =>
    if c.toNat = 48 then parseNumberTail cs
    else if isDigit c then parseNumberTail (skipDigits cs)
    else none

/-- Strip a literal word from the front of the input. -/
def stripWord : List Char → List Char → Option (List Char)
  | [], cs => some cs
  | _ :: _, [] => none
  | w :: ws, c :: cs => if w = c then stripWord ws cs else none

/-- Nesting limit of the `encoding/json` scanner. -/
def maxNestingDepth : Nat := 10000

mutual
/-- Read one JSON value; `depth` counts the containers already open. -/
def parseValue : Nat → Nat → List Char → Option (Json × List Char)
  | 0, _, _ => none
  | fuel + 1, depth, cs =>
    match skipWs cs with
    | [] => none
    | c :: rest =>
      if c = chLBrace then
        if depth + 1 > maxNestingDepth then none
        else
          match skipWs rest with
          | [] => none
          | d :: rest1 =>
            if d = chRBrace then some (Json.obj [], rest1)
            else
              match parseMembers fuel (depth + 1) (d :: rest1) with
              | none => none
              | some (ms, rest2) => some (Json.obj ms, rest2)
      else if c = chLBracket then
        if depth + 1 > maxNestingDepth then none
        else
          match skipWs rest with
          | [] => none
          | d :: rest1 =>
            if d = chRBracket then some (Json.arr [], rest1)
            else
              match parseItems fuel (depth + 1) (d :: rest1) with
              | none => none
              | some (xs, rest2) => some (Json.arr xs, rest2)
      else if c = chQuote then
        match parseString rest with
        | none => none
        | some (raw, val, rest1) => some (Json.str raw val, rest1)
      else if c.toNat = 45 then
        match parseNumberBody rest with
        | none => none
        | some rest1 => some (Json.num, rest1)
      else if isDigit c then
        match parseNumberBody (c :: rest) with
        | none => none
        | some rest1 => some (Json.num, rest1)
      else if c.toNat = 116 then
        match stripWord "rue".toList rest with
        | none => none
        | some rest1 => some (Json.bool true, rest1)
      else if c.toNat = 102 then
        match stripWord "alse".toList rest with
        | none => none
        | some rest1 => some (Json.bool false, rest1)
      else if c.toNat = 110 then
        match stripWord "ull".toList rest with
        | none => none
        | some rest1 => some (Json.null, rest1)
      else none
/-- Read `"key": value` pairs up to the closing brace; the input starts at a key. -/
def parseMembers : Nat → Nat → List Char → Option (List (List Char × Json) × List Char)
  | 0, _, _ => none
  | fuel + 1, depth, cs =>
    match cs with
    | [] => none
    | q :: cs1 =>
      if q = chQuote then
        match parseString cs1 with
        | none => none
        | some (_, key, cs2) =>
          match skipWs cs2 with
          | [] => none
          | colon :: cs3 =>
            if colon.toNat = 58 then
              match parseValue fuel depth cs3 with
              | none => none
              | some (v, cs4) =>
                match skipWs cs4 with
                | [] => none
                | sep :: cs5 =>
                  if sep.toNat = 44 then
                    match parseMembers fuel depth (skipWs cs5) with
                    | none => none
                    | some (ms, cs6) => some ((key, v) :: ms, cs6)
                  else if sep = chRBrace then some ([(key, v)], cs5)
                  else none
            else none
      else none
/-- Read array items up to the closing bracket; the input starts at an item. -/
def parseItems : Nat → Nat → List Char → Option (List Json × List Char)
  | 0, _, _ => none
  | fuel + 1, depth, cs =>
    match parseValue fuel depth cs with
    | none => none
    | some (v, cs1) =>
      match skipWs cs1 with
      | [] => none
      | sep :: cs2 =>
        if sep.toNat = 44 then
          match parseItems fuel depth cs2 with
          | none => none
          | some (xs, cs3) => some (v :: xs, cs3)
        else if sep = chRBracket then some ([v], cs2)
        else none
end

/-- Parse a whole document: one value, then nothing but whitespace.  Every
recursive call of the parser consumes input, so the length of the text bounds the
recursion. -/
def parseJson (text : String) : Option Json :=
  match parseValue (text.length + 1) 0 text.toList with
  | none => none
  | some (v, rest) =>
    match skipWs rest with
    | [] => some v
    | _ :: _ => none

/-! ## Timestamps (`time.Time.UnmarshalJSON`)

`UnmarshalJSON` hands the text between the quotes to `parseStrictRFC3339`.  In the
library as released (Go 1.20 and later) the strict checks of that function are switched
off: what its fast path turns down is given to `time.Parse(time.RFC3339, ...)`, and
whatever `Parse` reads is returned.  The fast path reads nothing that `Parse` does not
read the same way, so the reader below follows `Parse` with the layout
`2006-01-02T15:04:05Z07:00`: a one-digit hour, a comma before the fraction and a zone
offset of up to 24 hours and 60 minutes all pass.  Releases differ in such details (the
bound on the zone offset is a recent one), which is why the program takes its reader
from `Env.parseTime` and the theorems hold for every reader. -/

/-- Go `getnum`: one or two leading digits as a number (`fixed` asks for two), and the rest. -/
def getnum (s : List Char) (fixed : Bool) : Option (Nat × List Char) :=
  match s with
  | [] => none
  | a :: rest =>
    if isDigit a then
      match rest with
      | b :: rest1 =>
        if isDigit b then some ((a.toNat - 48) * 10 + (b.toNat - 48), rest1)
        else if fixed then none
        else some (a.toNat - 48, rest)
      | [] => if fixed then none else some (a.toNat - 48, [])
    else none

/-- The layout element `2006`: exactly four digits. -/
def getLongYear : List Char → Option (Nat × List Char)
  | a :: b :: c :: d :: rest =>
    if isDigit a && isDigit b && isDigit c && isDigit d then
      some ((((a.toNat - 48) * 10 + (b.toNat - 48)) * 10 + (c.toNat - 48)) * 10
        + (d.toNat - 48), rest)
    else none
  | _ => none

/-- Go `skip` for a one-character literal of the layout. -/
def skipLiteral (code : Nat) : List Char → Option (List Char)
  | [] => none
  | c :: rest => if c.toNat = code then some rest else none

/-- Number of days of a month of a year in the Gregorian calendar (Go `daysIn`). -/
def daysIn (month year : Nat) : Nat :=
  if month = 2 then
    if year % 4 = 0 && (year % 100 != 0 || year % 400 = 0) then 29 else 28
  else if month = 4 || month = 6 || month = 9 || month = 11 then 30
  else 31

/-- Nanoseconds denoted by the digits of a fraction: the first nine count
(Go `parseNanoseconds`). -/
def parseNanoseconds (ds : List Char) : Nat :=
  let kept := ds.take 9
  kept.foldl (fun acc c => acc * 10 + (c.toNat - 48)) 0 * 10 ^ (9 - kept.length)

/-- Go `commaOrPeriod`. -/
def commaOrPeriod (c : Char) : Bool := c.toNat = 46 || c.toNat = 44

/-- The fraction of a second that may follow the seconds: a period or a comma and at
least one digit.  Gives the nanoseconds and the rest of the text. -/
def fractionalSecond (value : List Char) : Nat × List Char :=
  match value with
  | sep :: d :: rest =>
    if commaOrPeriod sep && isDigit d then
      (parseNanoseconds (d :: rest.takeWhile isDigit), rest.dropWhile isDigit)
    else (0, value)
  | _ => (0, value)

/-- The layout element `Z07:00`, which ends the text: `Z`, or a sign, two digits, a
colon and two digits, with the hours up to 24 and the minutes up to 60.  Gives the
offset in seconds. -/
def zoneOffset (value : List Char) : Option Int :=
  match value with
  | [] => none
  | z :: rest =>
    if z.toNat = 90 then
      match rest with
      | [] => some 0
      | _ :: _ => none
    else
      match value with
      | [sg, h1, h2, colon, m1, m2] =>
        if colon.toNat = 58 then
          match getnum [h1, h2] true, getnum [m1, m2] true with
          | some (hr, _), some (mm, _) =>
            if hr > 24 || mm > 60 then none
            else if sg.toNat = 43 then some (((hr * 60 + mm) * 60 : Nat) : Int)
            else if sg.toNat = 45 then some (-(((hr * 60 + mm) * 60 : Nat) : Int))
            else none
          | _, _ => none
        else none
      | _ => none

/-- Model of `time.Parse(time.RFC3339, value)`: four digits of year, two of month, two
of day, one or two of hour, two of minute, two of second, an optional fraction, the
zone.  Month, hour, minute and second are checked as they are read, the day of the
month at the end. -/
def timeParseRFC3339 (value : List Char) : Option Time := do
  let (year, v1) ← getLongYear value
  let v2 ← skipLiteral 45 v1
  let (month, v3) ← getnum v2 true
  if month = 0 || 12 < month then none
  let v4 ← skipLiteral 45 v3
  let (day, v5) ← getnum v4 true
  let v6 ← skipLiteral 84 v5
  let (hour, v7) ← getnum v6 false
  if 24 ≤ hour then none
  let v8 ← skipLiteral 58 v7
  let (minute, v9) ← getnum v8 true
  if 60 ≤ minute then none
  let v10 ← skipLiteral 58 v9
  let (second, v11) ← getnum v10 true
  if 60 ≤ second then none
  let frac := fractionalSecond v11
  let off ← zoneOffset frac.2
  if day < 1 || day > daysIn month year then none
  some ⟨year, month, day, hour, minute, second, frac.1, off⟩

/-- Go `parseStrictRFC3339` as released: the result of `time.Parse(time.RFC3339, ...)`. -/
def parseStrictRFC3339 (b : List Char) : Option Time := timeParseRFC3339 b

/-! ## Decoding into `FHIRMessage` (`json.Unmarshal` driven by the struct tags) -/

/-- Why `json.Unmarshal` failed. -/
inductive JsonError where
  | malformed
  | typeMismatch
  | badTime
deriving DecidableEq, Repr

/-- Case folding of object keys: ASCII letters to upper case, and the two
non-ASCII characters whose fold class holds an ASCII letter (long s, Kelvin sign). -/
def foldRune (c : Char) : Char :=
  let n := c.toNat
  if 97 ≤ n && n ≤ 122 then Char.ofNat (n - 32)
  else if n = 383 then Char.ofNat 83
  else if n = 8490 then Char.ofNat 75
  else c

/-- Does the object key `key` select the field tagged `tag`?  An exact match does,
and so does a match up to case. -/
def keyMatches (tag : String) (key : List Char) : Bool :=
  key.map foldRune == tag.toList.map foldRune

/-- Decode into a `string` field: `null` leaves it, a string sets it. -/
def decodeString (cur : String) : Json → Except JsonError String
  | Json.null => .ok cur
  | Json.str _ val => .ok (String.mk val)
  | _ => .error JsonError.typeMismatch

/-- Decode into a `time.Time` field through its `UnmarshalJSON`: `null` leaves it, a
string is read by `readTime` from the raw text between its quotes, anything else is an
error. -/
def decodeTime (readTime : List Char → Option Time) (cur : Time) : Json → Except JsonError Time
  | Json.null => .ok cur
  | Json.str raw _ =>
    match readTime raw with
    | some t => .ok t
    | none => .error JsonError.badTime
  | _ => .error JsonError.badTime

/-- Apply the members of an object, in order, to a struct value. -/
def decodeMembers {α : Type} (step : α → List Char → Json → Except JsonError α) :
    α → List (List Char × Json) → Except JsonError α
  | cur, [] => .ok cur
  | cur, (k, v) :: ms =>
    match step cur k v with
    | .error e => .error e
    | .ok next => decodeMembers step next ms

/-- Decode into a struct: `null` leaves it, an object sets the fields its keys name. -/
def decodeStruct {α : Type} (step : α → List Char → Json → Except JsonError α)
    (cur : α) : Json → Except JsonError α
  | Json.null => .ok cur
  | Json.obj ms => decodeMembers step cur ms
  | _ => .error JsonError.typeMismatch

/-- One member of a `Period` object. -/
def Period.setField (readTime : List Char → Option Time) (p : Period) (key : List Char)
    (v : Json) : Except JsonError Period :=
  if keyMatches "start" key then
    (decodeTime readTime p.Start v).map (fun t => { p with Start := t })
  else if keyMatches "end" key then
    (decodeTime readTime p.End v).map (fun t => { p with End := t })
  else .ok p

/-- One member of an `Encounter` object. -/
def Encounter.setField (readTime : List Char → Option Time) (e : Encounter)
    (key : List Char) (v : Json) : Except JsonError Encounter :=
  if keyMatches "fhirId" key then
    (decodeString e.FhirId v).map (fun s => { e with FhirId := s })
  else if keyMatches "fullUrl" key then
    (decodeString e.FullUrl v).map (fun s => { e with FullUrl := s })
  else if keyMatches "status" key then
    (decodeString e.Status v).map (fun s => { e with Status := s })
  else if keyMatches "class" key then
    (decodeString e.Class v).map (fun s => { e with Class := s })
  else if keyMatches "period" key then
    (decodeStruct (Period.setField readTime) e.Period v).map (fun p => { e with Period := p })
  else if keyMatches "practitionerId" key then
    (decodeString e.PractitionerId v).map (fun s => { e with PractitionerId := s })
  else if keyMatches "patientId" key then
    (decodeString e.PatientId v).map (fun s => { e with PatientId := s })
  else .ok e

/-- One member of a `Practitioner` object. -/
def Practitioner.setField (p : Practitioner) (key : List Char) (v : Json) :
    Except JsonError Practitioner :=
  if keyMatches "fhirId" key then
    (decodeString p.FhirId v).map (fun s => { p with FhirId := s })
  else if keyMatches "givenName" key then
    (decodeString p.GivenName v).map (fun s => { p with GivenName := s })
  else if keyMatches "familyName" key then
    (decodeString p.FamilyName v).map (fun s => { p with FamilyName := s })
  else .ok p

/-- One member of a `Patient` object.  The identifier is tagged `id` (line 51). -/
def Patient.setField (p : Patient) (key : List Char) (v : Json) : Except JsonError Patient :=
  if keyMatches "id" key then
    (decodeString p.FhirId v).map (fun s => { p with FhirId := s })
  else if keyMatches "givenName" key then
    (decodeString p.GivenName v).map (fun s => { p with GivenName := s })
  else if keyMatches "familyName" key then
    (decodeString p.FamilyName v).map (fun s => { p with FamilyName := s })
  else if keyMatches "birthDate" key then
    (decodeString p.BirthDate v).map (fun s => { p with BirthDate := s })
  else if keyMatches "gender" key then
    (decodeString p.Gender v).map (fun s => { p with Gender := s })
  else .ok p

/-- One member of the top-level object. -/
def FHIRMessage.setField (readTime : List Char → Option Time) (m : FHIRMessage)
    (key : List Char) (v : Json) : Except JsonError FHIRMessage :=
  if keyMatches "encounter" key then
    (decodeStruct (Encounter.setField readTime) m.Encounter v).map (fun e => { m with Encounter := e })
  else if keyMatches "practitioner" key then
    (decodeStruct Practitioner.setField m.Practitioner v).map
      (fun p => { m with Practitioner := p })
  else if keyMatches "patient" key then
    (decodeStruct Patient.setField m.Patient v).map (fun p => { m with Patient := p })
  else .ok m

/-- Model of `json.Unmarshal([]byte(body), &fhirMsg)` with `fhirMsg` freshly declared: the
text is checked against the grammar first and decoded after, timestamps being read by
`readTime`.  When a body has several defects the first one met is reported; no caller
tells them apart. -/
def jsonUnmarshalWith (readTime : List Char → Option Time) (body : String) :
    Except JsonError FHIRMessage :=
  match parseJson body with
  | none => .error JsonError.malformed
  | some v => decodeStruct (FHIRMessage.setField readTime) FHIRMessage.zero v

/-- The decoder with the timestamp reader of the library as released. -/
def jsonUnmarshal (body : String) : Except JsonError FHIRMessage :=
  jsonUnmarshalWith parseStrictRFC3339 body

/-! ## The outside world -/

/-- Go `error` values the program holds: what `json.Unmarshal` returned, what the SQS or
MongoDB client reported, and `fmt.Errorf(format, cause)`. -/
inductive GoError where
  | json (e : JsonError)
  | remote (msg : String)
  | errorf (format : String) (cause : GoError)
deriving DecidableEq, Repr

/-- The `InsertedID` of an `InsertOneResult`: the identifier the server assigned. -/
structure InsertedID where
  raw : Nat
deriving DecidableEq, Repr

/-- Values the program puts in a `bson.M`. -/
inductive BsonValue where
  | str (s : String)
  | time (t : Time)
  | period (p : Period)
  | id (i : InsertedID)
deriving DecidableEq, Repr

/-- A `bson.M` document: keys with their values. -/
abbrev Doc := List (String × BsonValue)

/-- The value a document holds under a key. -/
def Doc.get (d : Doc) (key : String) : Option BsonValue := List.lookup key d

/-- The fields of an SQS `types.Message` the program reads; the two pointers may be nil. -/
structure Message where
  MessageId : Option String
  Body : Option String
  Attributes : List (String × String)
deriving DecidableEq, Repr

/-- A `*mongo.Client` handle. -/
structure MongoClient where
  handle : Nat
deriving DecidableEq, Repr

deriving instance DecidableEq for Except

/-- An argument of a format string. -/
inductive Arg where
  | str (s : String)
  | err (e : GoError)
deriving DecidableEq, Repr

/-- What the process does to the outside, one constructor per kind of call. -/
inductive Event where
  | logPrintf (format : String) (args : List Arg)
  | logFatalf (format : String) (args : List Arg)
  | stdout (format : String) (args : List Arg)
  | sleep (nanos : Nat)
  | receiveMessage (queueURL : String) (maxNumberOfMessages waitTimeSeconds : Nat)
  | connect (uri username password : String)
  | ping (client : MongoClient)
  | insertOne (client : MongoClient) (db coll : String) (doc : Doc)
      (result : Except GoError InsertedID)
deriving DecidableEq

/-- A document held by the datastore. -/
structure StoredDoc where
  db : String
  coll : String
  id : InsertedID
  doc : Doc
deriving DecidableEq, Repr

/-- State of the outside as the process sees it: how many calls were answered so far,
what the process did, what the datastore holds. -/
structure World where
  tick : Nat
  trace : List Event
  store : List StoredDoc
deriving DecidableEq

/-- The answers of the outside: the process environment, and what the queue, the
datastore and the clock reply to the call made at a given tick.  `parseTime` is the
reader of timestamps of the `time` package the binary is built with: how strict it is
has changed from one Go release to another and the sources name no release, so the
program is followed for any reader; `parseStrictRFC3339` is the one of the current
release. -/
structure Env where
  parseTime : List Char → Option Time
  getenv : String → String
  receiveMessage : Nat → String → Except GoError (List Message)
  mongoConnect : Nat → String → String → String → Except GoError MongoClient
  ping : Nat → MongoClient → Option GoError
  insertOne : Nat → MongoClient → String → String → Doc → Except GoError InsertedID
  now : Nat → Time

/-- How a piece of code ends: it returns, the process exits through `log.Fatalf`,
or it panics on a nil pointer. -/
inductive Outcome (α : Type) where
  | ret (a : α)
  | fatal
  | panic
deriving DecidableEq

/-- Record an event. -/
def World.emit (w : World) (e : Event) : World := { w with trace := w.trace ++ [e] }

/-- Count one answered call. -/
def World.step (w : World) : World := { w with tick := w.tick + 1 }

/-- Go `log.Printf`. -/
def logPrintf (format : String) (args : List Arg) (w : World) : World :=
  w.emit (Event.logPrintf format args)

/-- Go `time.Second`, in nanoseconds. -/
def Second : Nat := 1000000000

/-- Go `time.Sleep`. -/
def timeSleep (d : Nat) (w : World) : World := w.emit (Event.sleep d)

/-- Go `time.Now()`. -/
def timeNow (env : Env) (w : World) : Time × World := (env.now w.tick, w.step)

/-- Go `Collection.InsertOne`: the server answers; a successful insert adds the document
to the store under the identifier returned, a failed one adds nothing. -/
def insertOne (env : Env) (client : MongoClient) (db coll : String) (doc : Doc) (w : World) :
    Except GoError InsertedID × World :=
  let res := env.insertOne w.tick client db coll doc
  let w1 := (w.emit (Event.insertOne client db coll doc res)).step
  match res with
  | .ok id => (res, { w1 with store := w1.store ++ [⟨db, coll, id, doc⟩] })
  | .error _ => (res, w1)

/-! ## The program (`main.go` lines 102-296) -/

/-- Go `getDbClient`: both `log.Fatalf` calls end the process; only a failed `Ping`
comes back as an error. -/
def getDbClient (env : Env) (w : World) : Outcome (Except GoError MongoClient) × World :=
  let dbURI := env.getenv "DB_URI"
  let dbUser := env.getenv "DB_USER"
  let dbPwd := env.getenv "DB_PWD"
  if dbURI = "" ∨ dbUser = "" ∨ dbPwd = "" then
    (Outcome.fatal, w.emit (Event.logFatalf "DB credentials must be provided!" []))
  else
    let w1 := (w.emit (Event.connect dbURI dbUser dbPwd)).step
    match env.mongoConnect w.tick dbURI dbUser dbPwd with
    | .error err =>
      (Outcome.fatal, w1.emit (Event.logFatalf "Failed to connect to Database: %v" [Arg.err err]))
    | .ok client =>
      let w2 := (w1.emit (Event.ping client)).step
      match env.ping w1.tick client with
      | some err => (Outcome.ret (.error err), w2)
      | none => (Outcome.ret (.ok client), w2)

/-- The `bson.M` built at lines 141-148. -/
def patientDoc (fhirMsg : FHIRMessage) (processedAt : Time) : Doc :=
  [("fhirId", BsonValue.str fhirMsg.Encounter.FhirId),
   ("givenName", BsonValue.str fhirMsg.Patient.GivenName),
   ("familyName", BsonValue.str fhirMsg.Patient.FamilyName),
   ("birthDate", BsonValue.str fhirMsg.Patient.BirthDate),
   ("gender", BsonValue.str fhirMsg.Patient.Gender),
   ("processedAt", BsonValue.time processedAt)]

/-- The `bson.M` built at lines 158-163. -/
def pracDoc (fhirMsg : FHIRMessage) (processedAt : Time) : Doc :=
  [("fhirId", BsonValue.str fhirMsg.Encounter.FhirId),
   ("givenName", BsonValue.str fhirMsg.Practitioner.GivenName),
   ("familyName", BsonValue.str fhirMsg.Practitioner.FamilyName),
   ("processedAt", BsonValue.time processedAt)]

/-- The `bson.M` built at lines 174-183. -/
def encounterDoc (fhirMsg : FHIRMessage) (resultPrac resultPatient : InsertedID)
    (processedAt : Time) : Doc :=
  [("fhirId", BsonValue.str fhirMsg.Encounter.FhirId),
   ("fullUrl", BsonValue.str fhirMsg.Encounter.FullUrl),
   ("status", BsonValue.str fhirMsg.Encounter.Status),
   ("class", BsonValue.str fhirMsg.Encounter.Class),
   ("period", BsonValue.period fhirMsg.Encounter.Period),
   ("practitionerId", BsonValue.id resultPrac),
   ("patientId", BsonValue.id resultPatient),
   ("processedAt", BsonValue.time processedAt)]

/-- Go `saveResource`, lines 139-190: the three inserts, once the body is decoded and
the message id is read. -/
def saveDecoded (env : Env) (mongoClient : MongoClient) (dbName : String)
    (fhirMsg : FHIRMessage) (w : World) : Option GoError × World :=
  let w1 := logPrintf "Inserindo Patient ID: %s" [Arg.str fhirMsg.Patient.FhirId] w
  let t1 := timeNow env w1
  let r1 := insertOne env mongoClient dbName "patients" (patientDoc fhirMsg t1.1) t1.2
  match r1.1 with
  | .error err => (some (GoError.errorf "erro ao inserir patient: %v" err), r1.2)
  | .ok resultPatient =>
    let w2 := logPrintf "Patient %s registrado com sucesso" [Arg.str fhirMsg.Encounter.FhirId] r1.2
    let w3 := logPrintf "Inserindo Practitioner ID: %s" [Arg.str fhirMsg.Practitioner.FhirId] w2
    let t2 := timeNow env w3
    let r2 := insertOne env mongoClient dbName "practitioners" (pracDoc fhirMsg t2.1) t2.2
    match r2.1 with
    | .error err => (some (GoError.errorf "erro ao inserir Practitioner: %v" err), r2.2)
    | .ok resultPrac =>
      let w4 := logPrintf "Practitioner %s registrado com sucesso"
        [Arg.str fhirMsg.Practitioner.FhirId] r2.2
      let w5 := logPrintf "Inserindo Encounter ID: %s" [Arg.str fhirMsg.Encounter.FhirId] w4
      let t3 := timeNow env w5
      let r3 := insertOne env mongoClient dbName "encounters"
        (encounterDoc fhirMsg resultPrac resultPatient t3.1) t3.2
      match r3.1 with
      | .error err => (some (GoError.errorf "erro ao inserir encounter: %v" err), r3.2)
      | .ok _ =>
        (none, logPrintf "Encounter %s registrado com sucesso"
          [Arg.str fhirMsg.Encounter.FhirId] r3.2)

/-- Go `saveResource`.  `*msg.Body` and `*msg.MessageId` are dereferenced unguarded,
the second only after the body decoded. -/
def saveResource (env : Env) (mongoClient : MongoClient) (dbName : String) (msg : Message)
    (w : World) : Outcome (Option GoError) × World :=
  match msg.Body with
  | none => (Outcome.panic, w)
  | some body =>
    match jsonUnmarshalWith env.parseTime body with
    | .error err =>
      (Outcome.ret (some (GoError.json err)),
        logPrintf "erro ao decodificar mensagem: %v" [Arg.err (GoError.json err)] w)
    | .ok fhirMsg =>
      match msg.MessageId with
      | none => (Outcome.panic, w)
      | some messageId =>
        let w1 := logPrintf "Processando mensagem ID: %s" [Arg.str messageId] w
        let r := saveDecoded env mongoClient dbName fhirMsg w1
        (Outcome.ret r.1, r.2)

/-- Go `consumeMessage`: at most one message, or none, or the error of the receive call. -/
def consumeMessage (env : Env) (queueURL : String) (w : World) :
    Except GoError (Option Message) × World :=
  let w1 := logPrintf "Consuming one message..." [] w
  let w2 := (w1.emit (Event.receiveMessage queueURL 1 5)).step
  match env.receiveMessage w1.tick queueURL with
  | .error err => (.error err, w2)
  | .ok [] => (.ok none, logPrintf "No message available" [] w2)
  | .ok (m :: _) => (.ok (some m), w2)

/-- Go `msg.Attributes["MessageGroupId"]`: the empty string when the key is absent. -/
def messageGroupIdOf (msg : Message) : String :=
  (List.lookup "MessageGroupId" msg.Attributes).getD ""

/-- One pass through the body of the `for` loop of `processResources`, from the message
received to the end of the body (lines 269-293).  `Outcome.ret ()` is reaching the top
of the loop again. -/
def processMessage (env : Env) (msg : Message) (w : World) : Outcome Unit × World :=
  let messageGroupID := messageGroupIdOf msg
  let w2 := logPrintf "Etapa 2 - GroupId: %s" [Arg.str messageGroupID] w
  let w3 := w2.emit (Event.stdout "\n=== METADADOS DA MENSAGEM ===\n" [])
  match msg.MessageId with
  | none => (Outcome.panic, w3)
  | some messageId =>
    let w4 := w3.emit (Event.stdout "ID: %s\n" [Arg.str messageId])
    let dbName := getDatabaseName messageGroupID
    if dbName = "" then
      (Outcome.ret (),
        logPrintf "Message with invalid messageGroupID: %s" [Arg.str messageGroupID] w4)
    else
      let w5 := logPrintf "Etapa 3 - Conectando-se ao Database" [] w4
      let g := getDbClient env w5
      match g.1 with
      | Outcome.fatal => (Outcome.fatal, g.2)
      | Outcome.panic => (Outcome.panic, g.2)
      | Outcome.ret (.error err) =>
        (Outcome.ret (), logPrintf "Erro ao conectar ao database: %v" [Arg.err err] g.2)
      | Outcome.ret (.ok db) =>
        let w6 := logPrintf "Etapa 4 - Registrando Resource " [] g.2
        let s := saveResource env db dbName msg w6
        match s.1 with
        | Outcome.fatal => (Outcome.fatal, s.2)
        | Outcome.panic => (Outcome.panic, s.2)
        | Outcome.ret (some err) =>
          (Outcome.ret (), logPrintf "Erro ao processar mensagem: %v" [Arg.err err] s.2)
        | Outcome.ret none => (Outcome.ret (), logPrintf "FIM das Etapas" [] s.2)

/-- One pass through the body of the `for` loop of `processResources`, lines 256-293. -/
def processResourcesOnce (env : Env) (queueURL : String) (w : World) : Outcome Unit × World :=
  let w1 := logPrintf "Etapa 1 - Consumindo MSG" [] w
  let c := consumeMessage env queueURL w1
  match c.1 with
  | .error err =>
    let w2 := logPrintf "Erro ao consumir mensagem: %v" [Arg.err err] c.2
    (Outcome.ret (), timeSleep (5 * Second) w2)
  | .ok none => (Outcome.ret (), timeSleep (1 * Second) c.2)
  | .ok (some msg) => processMessage env msg c.2

/-- Go `processResources`: the loop has no exit of its own, so a run is followed for a
given number of iterations; it stops early only when the process ends. -/
def processResources (env : Env) (queueURL : String) : Nat → World → Outcome Unit × World
  | 0, w => (Outcome.ret (), w)
  | n + 1, w =>
    match processResourcesOnce env queueURL w with
    | (Outcome.ret (), w1) => processResources env queueURL n w1
    | (Outcome.fatal, w1) => (Outcome.fatal, w1)
    | (Outcome.panic, w1) => (Outcome.panic, w1)

/-! ## Reading a trace -/

/-- One `InsertOne` call as the trace records it. -/
structure InsertRecord where
  client : MongoClient
  db : String
  coll : String
  doc : Doc
  result : Except GoError InsertedID
deriving DecidableEq

/-- The `InsertOne` calls of a trace, in order. -/
def inserts : List Event → List InsertRecord
  | [] => []
  | Event.insertOne c db coll doc res :: es => ⟨c, db, coll, doc, res⟩ :: inserts es
  | _ :: es => inserts es

/-- The `mongo.Connect` calls of a trace, in order: URI, user name, password. -/
def connects : List Event → List (String × String × String)
  | [] => []
  | Event.connect uri user pwd :: es => (uri, user, pwd) :: connects es
  | _ :: es => connects es

/-- The durations slept in a trace, in order. -/
def sleeps : List Event → List Nat
  | [] => []
  | Event.sleep d :: es => d :: sleeps es
  | _ :: es => sleeps es

/-- Is the event a call to the datastore? -/
def Event.isDatastoreCall : Event → Bool
  | Event.connect _ _ _ => true
  | Event.ping _ => true
  | Event.insertOne _ _ _ _ _ => true
  | _ => false

/-- The calls to the datastore of a trace, in order. -/
def datastoreCalls (es : List Event) : List Event := es.filter Event.isDatastoreCall

/-- The log lines with which an iteration that goes on to the next one reports how it
went (lines 230, 259, 276, 283, 289, 293). -/
def closingLogs : List String :=
  ["Erro ao consumir mensagem: %v", "No message available",
   "Message with invalid messageGroupID: %s", "Erro ao conectar ao database: %v",
   "Erro ao processar mensagem: %v", "FIM das Etapas"]

/-- The events a piece of code added, taking the world from `w` to `w1`. -/
def newEvents (w w1 : World) : List Event := w1.trace.drop w.trace.length

/-! ## The shape of a persist run -/

/-- The four ways the inserts of `saveResource` can go, told by the `InsertOne` calls
made (`atts`), the error returned (`res`) and the store left behind: the patient insert
fails; it succeeds and the practitioner insert fails; both succeed and the encounter
insert fails; all three succeed. -/
def PersistOutcome (client : MongoClient) (db : String) (m : FHIRMessage)
    (storeBefore : List StoredDoc) (res : Option GoError) (atts : List InsertRecord)
    (storeAfter : List StoredDoc) : Prop :=
  (∃ t1 e1,
    atts = [⟨client, db, "patients", patientDoc m t1, .error e1⟩] ∧
    res = some (GoError.errorf "erro ao inserir patient: %v" e1) ∧
    storeAfter = storeBefore) ∨
  (∃ t1 id1 t2 e2,
    atts = [⟨client, db, "patients", patientDoc m t1, .ok id1⟩,
            ⟨client, db, "practitioners", pracDoc m t2, .error e2⟩] ∧
    res = some (GoError.errorf "erro ao inserir Practitioner: %v" e2) ∧
    storeAfter = storeBefore ++ [⟨db, "patients", id1, patientDoc m t1⟩]) ∨
  (∃ t1 id1 t2 id2 t3 e3,
    atts = [⟨client, db, "patients", patientDoc m t1, .ok id1⟩,
            ⟨client, db, "practitioners", pracDoc m t2, .ok id2⟩,
            ⟨client, db, "encounters", encounterDoc m id2 id1 t3, .error e3⟩] ∧
    res = some (GoError.errorf "erro ao inserir encounter: %v" e3) ∧
    storeAfter = storeBefore ++ [⟨db, "patients", id1, patientDoc m t1⟩,
      ⟨db, "practitioners", id2, pracDoc m t2⟩]) ∨
  (∃ t1 id1 t2 id2 t3 id3,
    atts = [⟨client, db, "patients", patientDoc m t1, .ok id1⟩,
            ⟨client, db, "practitioners", pracDoc m t2, .ok id2⟩,
            ⟨client, db, "encounters", encounterDoc m id2 id1 t3, .ok id3⟩] ∧
    res = none ∧
    storeAfter = storeBefore ++ [⟨db, "patients", id1, patientDoc m t1⟩,
      ⟨db, "practitioners", id2, pracDoc m t2⟩,
      ⟨db, "encounters", id3, encounterDoc m id2 id1 t3⟩])

/-! ## Sample data -/

/-- The message body of `TestSaveResource` (`main_test.go` lines 53-78). -/
def fixtureBody : String :=
  "\x7b\n\t\t\t\"encounter\": \x7b\n\t\t\t\t\"fhirId\": \"123\",\n\t\t\t\t\"fullUrl\": \"urn:uuid:123\",\n\t\t\t\t\"status\": \"finished\",\n\t\t\t\t\"class\": \"outpatient\",\n\t\t\t\t\"period\": \x7b\n\t\t\t\t\t\"start\": \"2023-01-01T10:00:00Z\",\n\t\t\t\t\t\"end\": \"2023-01-01T11:00:00Z\"\n\t\t\t\t\x7d,\n\t\t\t\t\"practitionerId\": \"dr-smith\",\n\t\t\t\t\"patientId\": \"patient-123\"\n\t\t\t\x7d,\n\t\t\t\"practitioner\": \x7b\n\t\t\t\t\"fhirId\": \"dr-smith\",\n\t\t\t\t\"givenName\": \"John\",\n\t\t\t\t\"familyName\": \"Smith\"\n\t\t\t\x7d,\n\t\t\t\"patient\": \x7b\n\t\t\t\t\"fhirId\": \"patient-123\",\n\t\t\t\t\"givenName\": \"Maria\",\n\t\t\t\t\"familyName\": \"Silva\",\n\t\t\t\t\"birthDate\": \"1990-01-01\",\n\t\t\t\t\"gender\": \"female\"\n\t\t\t\x7d\n\t\t\x7d"

/-- The message of `TestSaveResource`, with the routing key of tenant A. -/
def fixtureMsg : Message :=
  ⟨some "test-message", some fixtureBody, [("MessageGroupId", "001")]⟩

/-- The message of the `invalid message body` test: a body and nothing else. -/
def invalidMsg : Message := ⟨none, some "invalid json", []⟩

/-- An outside in which every call succeeds: the queue delivers `msgs`, the credentials
are set, and the server assigns the tick of the call as identifier.  Timestamps are
read as the released library reads them. -/
def healthyEnv (msgs : List Message) : Env where
  parseTime := parseStrictRFC3339
  getenv := fun name => "value-of-" ++ name
  receiveMessage := fun _ _ => .ok msgs
  mongoConnect := fun t _ _ _ => .ok ⟨t⟩
  ping := fun _ _ => none
  insertOne := fun t _ _ _ _ => .ok ⟨t⟩
  now := fun t => ⟨2024, 1, 1, 0, 0, t, 0, 0⟩

/-- The world before anything happened. -/
def World.initial : World := ⟨0, [], []⟩

/-- What the body of `TestSaveResource` decodes to. -/
def fixtureDecoded : FHIRMessage :=
  { Encounter :=
      { FhirId := "123", FullUrl := "urn:uuid:123", Status := "finished", Class := "outpatient",
        Period := ⟨⟨2023, 1, 1, 10, 0, 0, 0, 0⟩, ⟨2023, 1, 1, 11, 0, 0, 0, 0⟩⟩,
        PractitionerId := "dr-smith", PatientId := "patient-123" },
    Practitioner := { FhirId := "dr-smith", GivenName := "John", FamilyName := "Smith" },
    Patient :=
      { FhirId := "", GivenName := "Maria", FamilyName := "Silva", BirthDate := "1990-01-01",
        Gender := "female" } }

/-- The message of `TestSaveResource` with its message id left nil. -/
def fixtureMsgNoId : Message := ⟨none, some fixtureBody, [("MessageGroupId", "001")]⟩

/-- A message for tenant A whose body is not JSON. -/
def undecodableMsg : Message := ⟨some "msg-1", some "invalid json", [("MessageGroupId", "001")]⟩

/-- A message whose routing key names no tenant. -/
def unknownKeyMsg : Message := ⟨some "msg-2", some fixtureBody, [("MessageGroupId", "999")]⟩

/-- A message for tenant A whose timestamps use the spellings `time.Parse` lets through:
a one-digit hour, and a comma before the fraction with a zone offset of 24 hours. -/
def looseStampMsg : Message :=
  ⟨some "m-t",
    some ("\x7b\"encounter\":\x7b\"fhirId\":\"e1\",\"period\":\x7b" ++
      "\"start\":\"2023-01-01T1:00:00Z\",\"end\":\"2023-01-01T10:00:00,5+24:00\"\x7d\x7d\x7d"),
    [("MessageGroupId", "001")]⟩

/-- An outside like `healthyEnv` in which no datastore credential is set. -/
def noCredentialsEnv (msgs : List Message) : Env :=
  { healthyEnv msgs with getenv := fun _ => "" }

/-- An outside in which the receive call on the queue fails. -/
def unreachableQueueEnv : Env :=
  { healthyEnv [] with receiveMessage := fun _ _ => .error (GoError.remote "timeout") }

/-- An outside like `healthyEnv` in which `mongo.Connect` fails. -/
def refusingEnv (msgs : List Message) : Env :=
  { healthyEnv msgs with mongoConnect := fun _ _ _ _ => .error (GoError.remote "refused") }

/-! ## Auxiliary facts -/

theorem newEvents_of_trace {w w1 : World} {es : List Event} (h : w1.trace = w.trace ++ es) :
    newEvents w w1 = es := by
  simp [newEvents, h]

theorem inserts_append (a b : List Event) : inserts (a ++ b) = inserts a ++ inserts b := by
  induction a with
  | nil => rfl
  | cons e es ih => cases e <;> simp [inserts, ih]

theorem connects_append (a b : List Event) : connects (a ++ b) = connects a ++ connects b := by
  induction a with
  | nil => rfl
  | cons e es ih => cases e <;> simp [connects, ih]

theorem sleeps_append (a b : List Event) : sleeps (a ++ b) = sleeps a ++ sleeps b := by
  induction a with
  | nil => rfl
  | cons e es ih => cases e <;> simp [sleeps, ih]

theorem saveDecoded_extends (env : Env) (c : MongoClient) (db : String) (m : FHIRMessage)
    (w : World) :
    ∃ es, (saveDecoded env c db m w).2.trace = w.trace ++ es ∧ sleeps es = [] ∧
      connects es = [] := by
  simp only [saveDecoded, insertOne, timeNow, logPrintf, World.emit, World.step]
  cases h1 : env.insertOne (w.tick + 1) c db "patients" (patientDoc m (env.now w.tick)) with
  | error e1 => exact ⟨_, by simp [h1]; rfl, by simp [sleeps], by simp [connects]⟩
  | ok id1 =>
    simp only [h1]
    cases h2 : env.insertOne (w.tick + 1 + 1 + 1) c db "practitioners"
        (pracDoc m (env.now (w.tick + 1 + 1))) with
    | error e2 => exact ⟨_, by simp [h2]; rfl, by simp [sleeps], by simp [connects]⟩
    | ok id2 =>
      simp only [h2]
      cases h3 : env.insertOne (w.tick + 1 + 1 + 1 + 1 + 1) c db "encounters"
          (encounterDoc m id2 id1 (env.now (w.tick + 1 + 1 + 1 + 1))) with
      | error e3 => exact ⟨_, by simp [h3]; rfl, by simp [sleeps], by simp [connects]⟩
      | ok id3 => exact ⟨_, by simp [h3]; rfl, by simp [sleeps], by simp [connects]⟩

theorem saveResource_nil_body (env : Env) (c : MongoClient) (db : String) (msg : Message)
    (w : World) (hB : msg.Body = none) :
    saveResource env c db msg w = (Outcome.panic, w) := by
  simp [saveResource, hB]

theorem saveResource_decode_error (env : Env) (c : MongoClient) (db : String) (msg : Message)
    (w : World) (body : String) (err : JsonError) (hB : msg.Body = some body)
    (hJ : jsonUnmarshalWith env.parseTime body = .error err) :
    saveResource env c db msg w =
      (Outcome.ret (some (GoError.json err)),
        logPrintf "erro ao decodificar mensagem: %v" [Arg.err (GoError.json err)] w) := by
  simp [saveResource, hB, hJ]

theorem saveResource_nil_id (env : Env) (c : MongoClient) (db : String) (msg : Message)
    (w : World) (body : String) (m : FHIRMessage) (hB : msg.Body = some body)
    (hJ : jsonUnmarshalWith env.parseTime body = .ok m) (hI : msg.MessageId = none) :
    saveResource env c db msg w = (Outcome.panic, w) := by
  simp [saveResource, hB, hJ, hI]

theorem saveResource_decoded (env : Env) (c : MongoClient) (db : String) (msg : Message)
    (w : World) (body : String) (m : FHIRMessage) (id : String) (hB : msg.Body = some body)
    (hJ : jsonUnmarshalWith env.parseTime body = .ok m) (hI : msg.MessageId = some id) :
    saveResource env c db msg w =
      (Outcome.ret (saveDecoded env c db m
          (logPrintf "Processando mensagem ID: %s" [Arg.str id] w)).1,
        (saveDecoded env c db m (logPrintf "Processando mensagem ID: %s" [Arg.str id] w)).2) := by
  simp [saveResource, hB, hJ, hI]

theorem saveResource_extends (env : Env) (c : MongoClient) (db : String) (msg : Message)
    (w : World) :
    ∃ es, (saveResource env c db msg w).2.trace = w.trace ++ es ∧ sleeps es = [] ∧
      connects es = [] := by
  cases hB : msg.Body with
  | none => exact ⟨[], by simp [saveResource_nil_body _ _ _ _ _ hB], rfl, rfl⟩
  | some body =>
    cases hJ : jsonUnmarshalWith env.parseTime body with
    | error err =>
      rw [saveResource_decode_error _ _ _ _ _ _ _ hB hJ]
      exact ⟨[Event.logPrintf "erro ao decodificar mensagem: %v" [Arg.err (GoError.json err)]],
        rfl, rfl, rfl⟩
    | ok m =>
      cases hI : msg.MessageId with
      | none => exact ⟨[], by simp [saveResource_nil_id _ _ _ _ _ _ _ hB hJ hI], rfl, rfl⟩
      | some id =>
        rw [saveResource_decoded _ _ _ _ _ _ _ _ hB hJ hI]
        obtain ⟨es, h, hs, hc⟩ := saveDecoded_extends env c db m
          (logPrintf "Processando mensagem ID: %s" [Arg.str id] w)
        refine ⟨Event.logPrintf "Processando mensagem ID: %s" [Arg.str id] :: es, ?_, ?_, ?_⟩
        · rw [h]
          simp only [logPrintf, World.emit, List.append_assoc, List.singleton_append]
        · simpa [sleeps] using hs
        · simpa [connects] using hc

theorem getDbClient_extends (env : Env) (w : World) :
    ∃ es, (getDbClient env w).2.trace = w.trace ++ es ∧ sleeps es = [] ∧ inserts es = [] ∧
      (getDbClient env w).2.store = w.store := by
  unfold getDbClient
  simp only
  split
  · exact ⟨_, rfl, by simp [sleeps], by simp [inserts], rfl⟩
  · split
    · exact ⟨_, by simp [World.emit, World.step]; rfl, by simp [sleeps], by simp [inserts], rfl⟩
    · split
      · exact ⟨_, by simp [World.emit, World.step]; rfl, by simp [sleeps], by simp [inserts], rfl⟩
      · exact ⟨_, by simp [World.emit, World.step]; rfl, by simp [sleeps], by simp [inserts], rfl⟩

theorem processMessage_extends (env : Env) (msg : Message) (w : World) :
    ∃ es, (processMessage env msg w).2.trace = w.trace ++ es ∧ sleeps es = [] := by
  unfold processMessage
  simp only []
  cases hid : msg.MessageId with
  | none =>
    exact ⟨[_, _], by simp only [logPrintf, World.emit, List.append_assoc]; rfl, by rfl⟩
  | some id =>
    simp only []
    split
    · exact ⟨[_, _, _, _], by simp only [logPrintf, World.emit, List.append_assoc]; rfl, by rfl⟩
    · generalize hW : logPrintf "Etapa 3 - Conectando-se ao Database" [] _ = W
      have hWt : W.trace = w.trace ++
          [Event.logPrintf "Etapa 2 - GroupId: %s" [Arg.str (messageGroupIdOf msg)],
           Event.stdout "\n=== METADADOS DA MENSAGEM ===\n" [],
           Event.stdout "ID: %s\n" [Arg.str id],
           Event.logPrintf "Etapa 3 - Conectando-se ao Database" []] := by
        rw [← hW]; simp [logPrintf, World.emit]
      obtain ⟨es1, h1, hs1, -, -⟩ := getDbClient_extends env W
      generalize getDbClient env W = g at h1 ⊢
      obtain ⟨o, W1⟩ := g
      simp only at h1
      cases o with
      | fatal => exact ⟨_, by simp only [h1, hWt, List.append_assoc]; rfl, by simp [sleeps_append, hs1, sleeps]⟩
      | panic => exact ⟨_, by simp only [h1, hWt, List.append_assoc]; rfl, by simp [sleeps_append, hs1, sleeps]⟩
      | ret a =>
        cases a with
        | error err =>
          exact ⟨_, by simp only [logPrintf, World.emit, h1, hWt, List.append_assoc]; rfl,
            by simp [sleeps_append, hs1, sleeps]⟩
        | ok db =>
          simp only []
          obtain ⟨es2, h2, hs2, -⟩ := saveResource_extends env db
            (getDatabaseName (messageGroupIdOf msg)) msg
            (logPrintf "Etapa 4 - Registrando Resource " [] W1)
          generalize saveResource env db _ msg _ = s at h2 ⊢
          obtain ⟨o2, W2⟩ := s
          simp only [logPrintf, World.emit] at h2
          cases o2 with
          | fatal => exact ⟨_, by simp only [h2, h1, hWt, List.append_assoc]; rfl, by simp [sleeps_append, hs1, hs2, sleeps]⟩
          | panic => exact ⟨_, by simp only [h2, h1, hWt, List.append_assoc]; rfl, by simp [sleeps_append, hs1, hs2, sleeps]⟩
          | ret r =>
            cases r with
            | none => exact ⟨_, by simp only [logPrintf, World.emit, h2, h1, hWt, List.append_assoc]; rfl, by simp [sleeps_append, hs1, hs2, sleeps]⟩
            | some err => exact ⟨_, by simp only [logPrintf, World.emit, h2, h1, hWt, List.append_assoc]; rfl, by simp [sleeps_append, hs1, hs2, sleeps]⟩

theorem getDbClient_fatal_iff (env : Env) (w : World) :
    (getDbClient env w).1 = Outcome.fatal ↔
      ((env.getenv "DB_URI" = "" ∨ env.getenv "DB_USER" = "" ∨ env.getenv "DB_PWD" = "") ∨
        ∃ e, env.mongoConnect w.tick (env.getenv "DB_URI") (env.getenv "DB_USER")
          (env.getenv "DB_PWD") = .error e) := by
  unfold getDbClient
  simp only []
  by_cases hc : env.getenv "DB_URI" = "" ∨ env.getenv "DB_USER" = "" ∨ env.getenv "DB_PWD" = ""
  · simp [hc]
  · simp only [hc, if_false, false_or]
    cases hm : env.mongoConnect w.tick (env.getenv "DB_URI") (env.getenv "DB_USER")
        (env.getenv "DB_PWD") with
    | error e => simp
    | ok client =>
      simp only []
      cases hp : env.ping (w.emit (Event.connect (env.getenv "DB_URI") (env.getenv "DB_USER")
          (env.getenv "DB_PWD"))).step.tick client <;> simp

theorem getDbClient_ne_panic (env : Env) (w : World) :
    (getDbClient env w).1 ≠ Outcome.panic := by
  unfold getDbClient
  simp only []
  split
  · simp
  · split
    · simp
    · split <;> simp

theorem getDbClient_ok (env : Env) (w : World) (client : MongoClient)
    (hURI : env.getenv "DB_URI" ≠ "") (hUser : env.getenv "DB_USER" ≠ "")
    (hPwd : env.getenv "DB_PWD" ≠ "")
    (hConn : env.mongoConnect w.tick (env.getenv "DB_URI") (env.getenv "DB_USER")
      (env.getenv "DB_PWD") = .ok client)
    (hPing : env.ping (w.tick + 1) client = none) :
    getDbClient env w =
      (Outcome.ret (.ok client),
        ⟨w.tick + 2,
          w.trace ++ [Event.connect (env.getenv "DB_URI") (env.getenv "DB_USER")
            (env.getenv "DB_PWD"), Event.ping client],
          w.store⟩) := by
  unfold getDbClient
  simp [hURI, hUser, hPwd, hConn, hPing, World.emit, World.step]

theorem saveDecoded_store_inserts (env : Env) (c : MongoClient) (db : String)
    (m : FHIRMessage) (w : World) :
    PersistOutcome c db m w.store (saveDecoded env c db m w).1
      (inserts (newEvents w (saveDecoded env c db m w).2)) (saveDecoded env c db m w).2.store := by
  simp only [saveDecoded, insertOne, timeNow, logPrintf, World.emit, World.step, newEvents]
  cases h1 : env.insertOne (w.tick + 1) c db "patients" (patientDoc m (env.now w.tick)) with
  | error e1 =>
    left
    exact ⟨env.now w.tick, e1, by simp [h1, inserts], by simp [h1], by simp [h1]⟩
  | ok id1 =>
    right
    simp only [h1]
    cases h2 : env.insertOne (w.tick + 1 + 1 + 1) c db "practitioners"
        (pracDoc m (env.now (w.tick + 1 + 1))) with
    | error e2 =>
      left
      exact ⟨env.now w.tick, id1, env.now (w.tick + 1 + 1), e2,
        by simp [h1, h2, inserts], by simp [h2], by simp [h2]⟩
    | ok id2 =>
      right
      simp only [h2]
      cases h3 : env.insertOne (w.tick + 1 + 1 + 1 + 1 + 1) c db "encounters"
          (encounterDoc m id2 id1 (env.now (w.tick + 1 + 1 + 1 + 1))) with
      | error e3 =>
        left
        exact ⟨env.now w.tick, id1, env.now (w.tick + 1 + 1), id2,
          env.now (w.tick + 1 + 1 + 1 + 1), e3,
          by simp [h1, h2, h3, inserts], by simp [h3], by simp [h3]⟩
      | ok id3 =>
        right
        exact ⟨env.now w.tick, id1, env.now (w.tick + 1 + 1), id2,
          env.now (w.tick + 1 + 1 + 1 + 1), id3,
          by simp [h1, h2, h3, inserts], by simp [h3], by simp [h3]⟩

theorem saveResource_ne_fatal (env : Env) (c : MongoClient) (db : String) (msg : Message)
    (w : World) : (saveResource env c db msg w).1 ≠ Outcome.fatal := by
  cases hB : msg.Body with
  | none => simp [saveResource_nil_body _ _ _ _ _ hB]
  | some body =>
    cases hJ : jsonUnmarshalWith env.parseTime body with
    | error err => simp [saveResource_decode_error _ _ _ _ _ _ _ hB hJ]
    | ok m =>
      cases hI : msg.MessageId with
      | none => simp [saveResource_nil_id _ _ _ _ _ _ _ hB hJ hI]
      | some id => simp [saveResource_decoded _ _ _ _ _ _ _ _ hB hJ hI]

theorem saveResource_panic (env : Env) (c : MongoClient) (db : String) (msg : Message)
    (w : World) (h : (saveResource env c db msg w).1 = Outcome.panic) :
    msg.MessageId = none ∨ msg.Body = none := by
  cases hB : msg.Body with
  | none => exact Or.inr rfl
  | some body =>
    cases hI : msg.MessageId with
    | none => exact Or.inl rfl
    | some id =>
      cases hJ : jsonUnmarshalWith env.parseTime body with
      | error err => simp [saveResource_decode_error _ _ _ _ _ _ _ hB hJ] at h
      | ok m => simp [saveResource_decoded _ _ _ _ _ _ _ _ hB hJ hI] at h

theorem consumeMessage_error (env : Env) (q : String) (w : World) (e : GoError)
    (h : env.receiveMessage w.tick q = .error e) :
    consumeMessage env q w =
      (.error e, ⟨w.tick + 1, w.trace ++ [Event.logPrintf "Consuming one message..." [],
        Event.receiveMessage q 1 5], w.store⟩) := by
  simp [consumeMessage, logPrintf, World.emit, World.step, h]

theorem consumeMessage_empty (env : Env) (q : String) (w : World)
    (h : env.receiveMessage w.tick q = .ok []) :
    consumeMessage env q w =
      (.ok none, ⟨w.tick + 1, w.trace ++ [Event.logPrintf "Consuming one message..." [],
        Event.receiveMessage q 1 5, Event.logPrintf "No message available" []], w.store⟩) := by
  simp [consumeMessage, logPrintf, World.emit, World.step, h]

theorem consumeMessage_some (env : Env) (q : String) (w : World) (m : Message)
    (ms : List Message) (h : env.receiveMessage w.tick q = .ok (m :: ms)) :
    consumeMessage env q w =
      (.ok (some m), ⟨w.tick + 1, w.trace ++ [Event.logPrintf "Consuming one message..." [],
        Event.receiveMessage q 1 5], w.store⟩) := by
  simp [consumeMessage, logPrintf, World.emit, World.step, h]

theorem processResourcesOnce_error (env : Env) (q : String) (w : World) (e : GoError)
    (h : env.receiveMessage w.tick q = .error e) :
    processResourcesOnce env q w =
      (Outcome.ret (), ⟨w.tick + 1, w.trace ++ [Event.logPrintf "Etapa 1 - Consumindo MSG" [],
        Event.logPrintf "Consuming one message..." [], Event.receiveMessage q 1 5,
        Event.logPrintf "Erro ao consumir mensagem: %v" [Arg.err e],
        Event.sleep (5 * Second)], w.store⟩) := by
  have hc := consumeMessage_error env q (logPrintf "Etapa 1 - Consumindo MSG" [] w) e h
  simp only [processResourcesOnce, hc]
  simp [logPrintf, World.emit, timeSleep]

theorem processResourcesOnce_empty (env : Env) (q : String) (w : World)
    (h : env.receiveMessage w.tick q = .ok []) :
    processResourcesOnce env q w =
      (Outcome.ret (), ⟨w.tick + 1, w.trace ++ [Event.logPrintf "Etapa 1 - Consumindo MSG" [],
        Event.logPrintf "Consuming one message..." [], Event.receiveMessage q 1 5,
        Event.logPrintf "No message available" [],
        Event.sleep (1 * Second)], w.store⟩) := by
  have hc := consumeMessage_empty env q (logPrintf "Etapa 1 - Consumindo MSG" [] w) h
  simp only [processResourcesOnce, hc]
  simp [logPrintf, World.emit, timeSleep]

theorem processResourcesOnce_some (env : Env) (q : String) (w : World) (m : Message)
    (ms : List Message) (h : env.receiveMessage w.tick q = .ok (m :: ms)) :
    processResourcesOnce env q w =
      processMessage env m ⟨w.tick + 1, w.trace ++ [Event.logPrintf "Etapa 1 - Consumindo MSG" [],
        Event.logPrintf "Consuming one message..." [], Event.receiveMessage q 1 5], w.store⟩ := by
  have hc := consumeMessage_some env q (logPrintf "Etapa 1 - Consumindo MSG" [] w) m ms h
  simp only [processResourcesOnce, hc]
  simp [logPrintf, World.emit]

theorem processMessage_nil_id (env : Env) (msg : Message) (w : World)
    (hI : msg.MessageId = none) :
    processMessage env msg w =
      (Outcome.panic, ⟨w.tick, w.trace ++
        [Event.logPrintf "Etapa 2 - GroupId: %s" [Arg.str (messageGroupIdOf msg)],
         Event.stdout "\n=== METADADOS DA MENSAGEM ===\n" []], w.store⟩) := by
  simp [processMessage, hI, logPrintf, World.emit]

theorem processMessage_unknown (env : Env) (msg : Message) (w : World) (id : String)
    (hI : msg.MessageId = some id) (hK : getDatabaseName (messageGroupIdOf msg) = "") :
    processMessage env msg w =
      (Outcome.ret (), ⟨w.tick, w.trace ++
        [Event.logPrintf "Etapa 2 - GroupId: %s" [Arg.str (messageGroupIdOf msg)],
         Event.stdout "\n=== METADADOS DA MENSAGEM ===\n" [],
         Event.stdout "ID: %s\n" [Arg.str id],
         Event.logPrintf "Message with invalid messageGroupID: %s"
           [Arg.str (messageGroupIdOf msg)]], w.store⟩) := by
  simp [processMessage, hI, hK, logPrintf, World.emit]

theorem processMessage_fatal_iff (env : Env) (msg : Message) (w : World) :
    (processMessage env msg w).1 = Outcome.fatal ↔
      ∃ id, msg.MessageId = some id ∧ getDatabaseName (messageGroupIdOf msg) ≠ "" ∧
        ((env.getenv "DB_URI" = "" ∨ env.getenv "DB_USER" = "" ∨ env.getenv "DB_PWD" = "") ∨
          ∃ e, env.mongoConnect w.tick (env.getenv "DB_URI") (env.getenv "DB_USER")
            (env.getenv "DB_PWD") = .error e) := by
  cases hid : msg.MessageId with
  | none => simp [processMessage_nil_id env msg w hid]
  | some id =>
    by_cases hK : getDatabaseName (messageGroupIdOf msg) = ""
    · simp [processMessage_unknown env msg w id hid hK, hK]
    · unfold processMessage
      simp only [hid, hK, if_false]
      generalize hW : logPrintf "Etapa 3 - Conectando-se ao Database" [] _ = W
      have hWt : W.tick = w.tick := by rw [← hW]; rfl
      have hf := getDbClient_fatal_iff env W
      have hp := getDbClient_ne_panic env W
      rw [hWt] at hf
      generalize getDbClient env W = g at hf hp ⊢
      obtain ⟨o, W1⟩ := g
      simp only at hf hp
      cases o with
      | fatal => simpa [hK] using hf
      | panic => exact absurd rfl hp
      | ret a =>
        cases a with
        | error err => simpa [hK] using hf
        | ok db =>
          simp only []
          have hs := saveResource_ne_fatal env db (getDatabaseName (messageGroupIdOf msg)) msg
            (logPrintf "Etapa 4 - Registrando Resource " [] W1)
          generalize saveResource env db _ msg _ = s at hs ⊢
          obtain ⟨o2, W2⟩ := s
          simp only at hs
          cases o2 with
          | fatal => exact absurd rfl hs
          | panic => simpa [hK] using hf
          | ret r => cases r <;> simpa [hK] using hf

theorem processMessage_panic (env : Env) (msg : Message) (w : World)
    (h : (processMessage env msg w).1 = Outcome.panic) :
    msg.MessageId = none ∨ msg.Body = none := by
  cases hid : msg.MessageId with
  | none => exact Or.inl rfl
  | some id =>
    right
    by_cases hK : getDatabaseName (messageGroupIdOf msg) = ""
    · simp [processMessage_unknown env msg w id hid hK] at h
    · unfold processMessage at h
      simp only [hid, hK, if_false] at h
      generalize hW : logPrintf "Etapa 3 - Conectando-se ao Database" [] _ = W at h
      have hp := getDbClient_ne_panic env W
      generalize getDbClient env W = g at hp h
      obtain ⟨o, W1⟩ := g
      simp only at hp
      cases o with
      | fatal => simp at h
      | panic => exact absurd rfl hp
      | ret a =>
        cases a with
        | error err => simp at h
        | ok db =>
          simp only [] at h
          have hs := saveResource_panic env db (getDatabaseName (messageGroupIdOf msg)) msg
            (logPrintf "Etapa 4 - Registrando Resource " [] W1)
          generalize saveResource env db _ msg _ = s at hs h
          obtain ⟨o2, W2⟩ := s
          simp only at hs
          cases o2 with
          | fatal => simp at h
          | panic => simpa [hid] using hs rfl
          | ret r => cases r <;> simp at h

theorem mem_newEvents_of_last (w w1 : World) (e : Event) (es : List Event)
    (h : w1.trace = w.trace ++ es) : e ∈ newEvents w (w1.emit e) := by
  simp [newEvents, World.emit, h]

theorem processMessage_ret_logs (env : Env) (msg : Message) (w : World)
    (h : (processMessage env msg w).1 = Outcome.ret ()) :
    ∃ format args, Event.logPrintf format args ∈ newEvents w (processMessage env msg w).2 ∧
      format ∈ closingLogs := by
  cases hid : msg.MessageId with
  | none => simp [processMessage_nil_id env msg w hid] at h
  | some id =>
    by_cases hK : getDatabaseName (messageGroupIdOf msg) = ""
    · refine ⟨"Message with invalid messageGroupID: %s", [Arg.str (messageGroupIdOf msg)], ?_, ?_⟩
      · simp [processMessage_unknown env msg w id hid hK, newEvents]
      · simp [closingLogs]
    · unfold processMessage at h ⊢
      simp only [hid, hK, if_false] at h ⊢
      generalize hW : logPrintf "Etapa 3 - Conectando-se ao Database" [] _ = W at h ⊢
      have hWt : ∃ es, W.trace = w.trace ++ es := ⟨_, by rw [← hW]; simp [logPrintf, World.emit]; rfl⟩
      obtain ⟨es0, hes0⟩ := hWt
      obtain ⟨es1, h1, -⟩ := getDbClient_extends env W
      generalize getDbClient env W = g at h1 h ⊢
      obtain ⟨o, W1⟩ := g
      simp only at h1
      cases o with
      | fatal => simp at h
      | panic => simp at h
      | ret a =>
        cases a with
        | error err =>
          refine ⟨"Erro ao conectar ao database: %v", [Arg.err err], ?_, by simp [closingLogs]⟩
          exact mem_newEvents_of_last w W1 _ (es0 ++ es1) (by rw [h1, hes0, List.append_assoc])
        | ok db =>
          simp only [] at h ⊢
          obtain ⟨es2, h2, -⟩ := saveResource_extends env db
            (getDatabaseName (messageGroupIdOf msg)) msg
            (logPrintf "Etapa 4 - Registrando Resource " [] W1)
          generalize saveResource env db _ msg _ = s at h2 h ⊢
          obtain ⟨o2, W2⟩ := s
          simp only [logPrintf, World.emit] at h2
          cases o2 with
          | fatal => simp at h
          | panic => simp at h
          | ret r =>
            cases r with
            | none =>
              refine ⟨"FIM das Etapas", [], ?_, by simp [closingLogs]⟩
              exact mem_newEvents_of_last w W2 _ (es0 ++ es1 ++ [Event.logPrintf "Etapa 4 - Registrando Resource " []] ++ es2)
                (by rw [h2, h1, hes0]; simp only [List.append_assoc])
            | some err =>
              refine ⟨"Erro ao processar mensagem: %v", [Arg.err err], ?_, by simp [closingLogs]⟩
              exact mem_newEvents_of_last w W2 _ (es0 ++ es1 ++ [Event.logPrintf "Etapa 4 - Registrando Resource " []] ++ es2)
                (by rw [h2, h1, hes0]; simp only [List.append_assoc])

theorem parseStrictRFC3339_examples :
    parseStrictRFC3339 "2023-01-01T10:00:00Z".toList = some ⟨2023, 1, 1, 10, 0, 0, 0, 0⟩ ∧
    parseStrictRFC3339 "2023-01-01T1:00:00Z".toList = some ⟨2023, 1, 1, 1, 0, 0, 0, 0⟩ ∧
    parseStrictRFC3339 "2023-01-01T10:00:00+24:00".toList =
      some ⟨2023, 1, 1, 10, 0, 0, 0, 86400⟩ ∧
    parseStrictRFC3339 "2023-01-01T10:00:00,5Z".toList =
      some ⟨2023, 1, 1, 10, 0, 0, 500000000, 0⟩ ∧
    parseStrictRFC3339 "2023-01-01T10:00:00+25:00".toList = none ∧
    parseStrictRFC3339 "2023-01-01T24:00:00Z".toList = none ∧
    parseStrictRFC3339 "2023-02-29T10:00:00Z".toList = none ∧
    parseStrictRFC3339 "2023-01-01 10:00:00Z".toList = none := by
  refine ⟨rfl, rfl, rfl, rfl, rfl, rfl, rfl, rfl⟩

theorem saveResource_looseStampMsg :
    (saveResource (healthyEnv []) ⟨0⟩ "fhir_hca" looseStampMsg World.initial).1 =
      Outcome.ret none ∧
    (saveResource (healthyEnv []) ⟨0⟩ "fhir_hca" looseStampMsg World.initial).2.store.map
      (fun d => d.coll) = ["patients", "practitioners", "encounters"] := by
  refine ⟨rfl, rfl⟩

theorem jsonUnmarshal_fixtureBody : jsonUnmarshal fixtureBody = .ok fixtureDecoded := by
  rfl

theorem saveResource_decoded_view (env : Env) (c : MongoClient) (db : String) (msg : Message)
    (w : World) (body : String) (m : FHIRMessage) (id : String) (hB : msg.Body = some body)
    (hJ : jsonUnmarshalWith env.parseTime body = .ok m) (hI : msg.MessageId = some id) :
    ∃ res, (saveResource env c db msg w).1 = Outcome.ret res ∧
      PersistOutcome c db m w.store res
        (inserts (newEvents w (saveResource env c db msg w).2))
        (saveResource env c db msg w).2.store := by
  rw [saveResource_decoded _ _ _ _ _ _ _ _ hB hJ hI]
  refine ⟨_, rfl, ?_⟩
  have h := saveDecoded_store_inserts env c db m
    (logPrintf "Processando mensagem ID: %s" [Arg.str id] w)
  obtain ⟨es, hes, -, -⟩ := saveDecoded_extends env c db m
    (logPrintf "Processando mensagem ID: %s" [Arg.str id] w)
  have e1 : newEvents (logPrintf "Processando mensagem ID: %s" [Arg.str id] w)
      (saveDecoded env c db m (logPrintf "Processando mensagem ID: %s" [Arg.str id] w)).2 = es :=
    newEvents_of_trace hes
  have e2 : newEvents w
      (saveDecoded env c db m (logPrintf "Processando mensagem ID: %s" [Arg.str id] w)).2 =
      Event.logPrintf "Processando mensagem ID: %s" [Arg.str id] :: es := by
    apply newEvents_of_trace
    rw [hes]
    simp [logPrintf, World.emit]
  rw [e1] at h
  simp only [e2, inserts]
  exact h

theorem newEvents_self (w : World) : newEvents w w = [] := by
  simp [newEvents]

theorem mem_newEvents_of_mem (w w1 w2 : World) (pre es : List Event) (e : Event)
    (h1 : w1.trace = w.trace ++ pre) (h2 : w2.trace = w1.trace ++ es)
    (he : e ∈ newEvents w1 w2) : e ∈ newEvents w w2 := by
  rw [newEvents_of_trace h2] at he
  have h3 : w2.trace = w.trace ++ (pre ++ es) := by rw [h2, h1, List.append_assoc]
  rw [newEvents_of_trace h3]
  exact List.mem_append_right _ he

/-! ## The claims -/

/-- C1: `getDatabaseName` is defined on every string; it maps "001" to "fhir_hca" and
"002" to "fhir_hcb", and every other string, the empty one and "999" among them, to the
empty string, so that exactly these two keys are recognised. -/
theorem getDatabaseName_spec (s : String) :
    getDatabaseName "001" = "fhir_hca" ∧ getDatabaseName "002" = "fhir_hcb" ∧
    getDatabaseName "" = "" ∧ getDatabaseName "999" = "" ∧
    (s ≠ "001" → s ≠ "002" → getDatabaseName s = "") ∧
    (getDatabaseName s ≠ "" ↔ s = "001" ∨ s = "002") := by
  refine ⟨rfl, rfl, rfl, rfl, ?_, ?_⟩
  · intro h1 h2
    unfold getDatabaseName
    split <;> simp_all
  · unfold getDatabaseName
    split <;> simp_all

/-- Witness of C1 at a key that is neither "001" nor "002". -/
theorem getDatabaseName_spec_witness :
    "003" ≠ "001" ∧ "003" ≠ "002" ∧ getDatabaseName "003" = "" :=
  ⟨by decide, by decide, (getDatabaseName_spec "003").2.2.2.2.1 (by decide) (by decide)⟩

/-- C2: when the body of a message does not decode, `saveResource` returns the decode
error, makes no `InsertOne` call and leaves the store as it was, whatever the database
name and whether or not the message has a message id; the one thing it does is log the
failure. -/
theorem saveResource_undecodable (env : Env) (c : MongoClient) (db : String) (msg : Message)
    (w : World) (body : String) (err : JsonError) (hB : msg.Body = some body)
    (hJ : jsonUnmarshalWith env.parseTime body = .error err) :
    (saveResource env c db msg w).1 = Outcome.ret (some (GoError.json err)) ∧
    inserts (newEvents w (saveResource env c db msg w).2) = [] ∧
    datastoreCalls (newEvents w (saveResource env c db msg w).2) = [] ∧
    (saveResource env c db msg w).2.store = w.store ∧
    newEvents w (saveResource env c db msg w).2 =
      [Event.logPrintf "erro ao decodificar mensagem: %v" [Arg.err (GoError.json err)]] := by
  rw [saveResource_decode_error _ _ _ _ _ _ _ hB hJ]
  have h : newEvents w (logPrintf "erro ao decodificar mensagem: %v"
      [Arg.err (GoError.json err)] w) =
      [Event.logPrintf "erro ao decodificar mensagem: %v" [Arg.err (GoError.json err)]] :=
    newEvents_of_trace rfl
  refine ⟨rfl, ?_, ?_, rfl, h⟩
  · rw [h]; rfl
  · rw [h]; rfl

/-- Witness of C2: the message of the `invalid message body` test, which has no id. -/
theorem saveResource_undecodable_witness :
    invalidMsg.Body = some "invalid json" ∧ invalidMsg.MessageId = none ∧
    jsonUnmarshal "invalid json" = .error JsonError.malformed ∧
    (saveResource (healthyEnv []) ⟨0⟩ "fhir_hca" invalidMsg World.initial).1 =
      Outcome.ret (some (GoError.json JsonError.malformed)) ∧
    inserts (newEvents World.initial
      (saveResource (healthyEnv []) ⟨0⟩ "fhir_hca" invalidMsg World.initial).2) = [] :=
  ⟨rfl, rfl, rfl,
    (saveResource_undecodable (healthyEnv []) ⟨0⟩ "fhir_hca" invalidMsg World.initial
      "invalid json" JsonError.malformed rfl rfl).1,
    (saveResource_undecodable (healthyEnv []) ⟨0⟩ "fhir_hca" invalidMsg World.initial
      "invalid json" JsonError.malformed rfl rfl).2.1⟩

/-- C3: for a message whose body decodes, every encounter document `saveResource` hands
to `InsertOne` comes third, after a patient insert and a practitioner insert that both
succeeded in this call, and holds under `patientId` the identifier the patient insert
returned and under `practitionerId` the identifier the practitioner insert returned,
whatever the payload carried in those fields.  When `saveResource` returns no error, that
is when all three inserts succeeded, such an encounter document was written. -/
theorem saveResource_encounter_refs (env : Env) (c : MongoClient) (db : String)
    (msg : Message) (w : World) (body : String) (m : FHIRMessage)
    (hB : msg.Body = some body) (hJ : jsonUnmarshalWith env.parseTime body = .ok m) :
    (∀ e ∈ inserts (newEvents w (saveResource env c db msg w).2), e.coll = "encounters" →
      ∃ p pr pid prid,
        inserts (newEvents w (saveResource env c db msg w).2) = [p, pr, e] ∧
        p.coll = "patients" ∧ p.result = .ok pid ∧
        pr.coll = "practitioners" ∧ pr.result = .ok prid ∧
        e.doc.get "patientId" = some (BsonValue.id pid) ∧
        e.doc.get "practitionerId" = some (BsonValue.id prid)) ∧
    ((saveResource env c db msg w).1 = Outcome.ret none →
      ∃ p pr e pid prid eid,
        inserts (newEvents w (saveResource env c db msg w).2) = [p, pr, e] ∧
        p.result = .ok pid ∧ pr.result = .ok prid ∧
        e.coll = "encounters" ∧ e.result = .ok eid) := by
  cases hI : msg.MessageId with
  | none =>
    rw [saveResource_nil_id _ _ _ _ _ _ _ hB hJ hI]
    simp [newEvents_self, inserts]
  | some id =>
    obtain ⟨res, hres, hP⟩ := saveResource_decoded_view env c db msg w body m id hB hJ hI
    rw [hres]
    rcases hP with ⟨_, _, ha, hr, _⟩ | ⟨_, _, _, _, ha, hr, _⟩ |
      ⟨t1, id1, t2, id2, t3, e3, ha, hr, _⟩ | ⟨t1, id1, t2, id2, t3, id3, ha, hr, _⟩
    · rw [ha, hr]
      simp
    · rw [ha, hr]
      simp
    · rw [ha, hr]
      refine ⟨?_, by simp⟩
      intro e he hc
      simp only [List.mem_cons, List.mem_singleton, List.not_mem_nil, or_false] at he
      rcases he with he | he | he
      · subst he; simp at hc
      · subst he; simp at hc
      · subst he
        exact ⟨_, _, id1, id2, rfl, rfl, rfl, rfl, rfl, rfl, rfl⟩
    · rw [ha, hr]
      refine ⟨?_, fun _ => ⟨_, _, _, id1, id2, id3, rfl, rfl, rfl, rfl, rfl⟩⟩
      intro e he hc
      simp only [List.mem_cons, List.mem_singleton, List.not_mem_nil, or_false] at he
      rcases he with he | he | he
      · subst he; simp at hc
      · subst he; simp at hc
      · subst he
        exact ⟨_, _, id1, id2, rfl, rfl, rfl, rfl, rfl, rfl, rfl⟩

/-- Witness of C3: the message of `TestSaveResource` against a datastore that accepts
every insert. -/
theorem saveResource_encounter_refs_witness :
    fixtureMsg.Body = some fixtureBody ∧ jsonUnmarshal fixtureBody = .ok fixtureDecoded ∧
    (saveResource (healthyEnv []) ⟨0⟩ "fhir_hca" fixtureMsg World.initial).1 = Outcome.ret none ∧
    (∃ p pr e pid prid eid,
      inserts (newEvents World.initial
        (saveResource (healthyEnv []) ⟨0⟩ "fhir_hca" fixtureMsg World.initial).2) = [p, pr, e] ∧
      p.result = .ok pid ∧ pr.result = .ok prid ∧
      e.coll = "encounters" ∧ e.result = .ok eid) ∧
    (∀ e ∈ inserts (newEvents World.initial
        (saveResource (healthyEnv []) ⟨0⟩ "fhir_hca" fixtureMsg World.initial).2),
      e.coll = "encounters" →
      ∃ p pr pid prid,
        inserts (newEvents World.initial
          (saveResource (healthyEnv []) ⟨0⟩ "fhir_hca" fixtureMsg World.initial).2) = [p, pr, e] ∧
        p.coll = "patients" ∧ p.result = .ok pid ∧
        pr.coll = "practitioners" ∧ pr.result = .ok prid ∧
        e.doc.get "patientId" = some (BsonValue.id pid) ∧
        e.doc.get "practitionerId" = some (BsonValue.id prid)) :=
  ⟨rfl, rfl, rfl,
    (saveResource_encounter_refs (healthyEnv []) ⟨0⟩ "fhir_hca" fixtureMsg World.initial
      fixtureBody fixtureDecoded rfl rfl).2 rfl,
    (saveResource_encounter_refs (healthyEnv []) ⟨0⟩ "fhir_hca" fixtureMsg World.initial
      fixtureBody fixtureDecoded rfl rfl).1⟩

/-- C4, as stated, fails on a message without a message id: the body of the test fixture
decodes, yet `saveResource` panics at line 137 before any insert; it neither returns nor
reaches an insert that could fail, although the datastore would accept all three. -/
theorem saveResource_without_id_panics :
    fixtureMsgNoId.Body = some fixtureBody ∧
    jsonUnmarshal fixtureBody = .ok fixtureDecoded ∧
    saveResource (healthyEnv []) ⟨0⟩ "fhir_hca" fixtureMsgNoId World.initial =
      (Outcome.panic, World.initial) ∧
    ¬ ∃ res, (saveResource (healthyEnv []) ⟨0⟩ "fhir_hca" fixtureMsgNoId World.initial).1 =
        Outcome.ret res ∧
      PersistOutcome ⟨0⟩ "fhir_hca" fixtureDecoded World.initial.store res
        (inserts (newEvents World.initial
          (saveResource (healthyEnv []) ⟨0⟩ "fhir_hca" fixtureMsgNoId World.initial).2))
        (saveResource (healthyEnv []) ⟨0⟩ "fhir_hca" fixtureMsgNoId World.initial).2.store := by
  have h : saveResource (healthyEnv []) ⟨0⟩ "fhir_hca" fixtureMsgNoId World.initial =
      (Outcome.panic, World.initial) :=
    saveResource_nil_id _ _ _ _ _ fixtureBody fixtureDecoded rfl jsonUnmarshal_fixtureBody rfl
  refine ⟨rfl, jsonUnmarshal_fixtureBody, h, ?_⟩
  rintro ⟨res, hres, -⟩
  rw [h] at hres
  simp at hres

/-- C4, amended: for a message with a message id whose body decodes, `saveResource`
returns, and its `InsertOne` calls are patients, practitioners, encounters in the given
database, cut off at the first one that fails: the documents inserted before the failure
stay in the store, nothing is inserted after it, and an error is returned.  It returns no
error exactly when it made three calls and all succeeded; the store then holds three more
documents, one per collection. -/
theorem saveResource_stops_at_first_failure (env : Env) (c : MongoClient) (db : String)
    (msg : Message) (w : World) (body : String) (m : FHIRMessage) (id : String)
    (hB : msg.Body = some body) (hJ : jsonUnmarshalWith env.parseTime body = .ok m)
    (hI : msg.MessageId = some id) :
    ∃ res, (saveResource env c db msg w).1 = Outcome.ret res ∧
      PersistOutcome c db m w.store res
        (inserts (newEvents w (saveResource env c db msg w).2))
        (saveResource env c db msg w).2.store ∧
      (res = none ↔
        (inserts (newEvents w (saveResource env c db msg w).2)).length = 3 ∧
        ∀ a ∈ inserts (newEvents w (saveResource env c db msg w).2), ∃ i, a.result = .ok i) := by
  obtain ⟨res, hres, hP⟩ := saveResource_decoded_view env c db msg w body m id hB hJ hI
  refine ⟨res, hres, hP, ?_⟩
  rcases hP with ⟨_, _, ha, hr, _⟩ | ⟨_, _, _, _, ha, hr, _⟩ | ⟨_, _, _, _, _, _, ha, hr, _⟩ |
    ⟨_, _, _, _, _, _, ha, hr, _⟩
  · simp [ha, hr]
  · simp [ha, hr]
  · simp [ha, hr]
  · simp [ha, hr]

/-- Witness of C4 amended: the message of `TestSaveResource`. -/
theorem saveResource_stops_at_first_failure_witness :
    fixtureMsg.Body = some fixtureBody ∧ jsonUnmarshal fixtureBody = .ok fixtureDecoded ∧
    fixtureMsg.MessageId = some "test-message" ∧
    ∃ res, (saveResource (healthyEnv []) ⟨0⟩ "fhir_hca" fixtureMsg World.initial).1 =
        Outcome.ret res ∧
      PersistOutcome ⟨0⟩ "fhir_hca" fixtureDecoded World.initial.store res
        (inserts (newEvents World.initial
          (saveResource (healthyEnv []) ⟨0⟩ "fhir_hca" fixtureMsg World.initial).2))
        (saveResource (healthyEnv []) ⟨0⟩ "fhir_hca" fixtureMsg World.initial).2.store ∧
      (res = none ↔
        (inserts (newEvents World.initial
          (saveResource (healthyEnv []) ⟨0⟩ "fhir_hca" fixtureMsg World.initial).2)).length = 3 ∧
        ∀ a ∈ inserts (newEvents World.initial
          (saveResource (healthyEnv []) ⟨0⟩ "fhir_hca" fixtureMsg World.initial).2),
          ∃ i, a.result = .ok i) :=
  ⟨rfl, rfl, rfl,
    saveResource_stops_at_first_failure (healthyEnv []) ⟨0⟩ "fhir_hca" fixtureMsg World.initial
      fixtureBody fixtureDecoded "test-message" rfl rfl rfl⟩

/-- C5 fails on the code: in the body of the test fixture the encounter and the
practitioner identifiers are read from `fhirId`, but the patient identifier is left
empty, since `Patient.FhirId` is tagged `id` (line 51): in a patient object the key
`fhirId` is skipped whatever its value, and it is the key `id` that sets the field. -/
theorem fixture_patient_identifier_lost :
    jsonUnmarshal fixtureBody = .ok fixtureDecoded ∧
    fixtureDecoded.Encounter.FhirId = "123" ∧
    fixtureDecoded.Practitioner.FhirId = "dr-smith" ∧
    fixtureDecoded.Patient.FhirId = "" ∧
    fixtureDecoded.Patient.FhirId ≠ "patient-123" ∧
    (∀ (p : Patient) (v : Json), Patient.setField p "fhirId".toList v = .ok p) ∧
    (∀ (p : Patient) (raw val : List Char),
      Patient.setField p "id".toList (Json.str raw val) = .ok { p with FhirId := String.mk val }) := by
  refine ⟨jsonUnmarshal_fixtureBody, rfl, rfl, rfl, by decide, ?_, ?_⟩
  · intro p v
    have h1 : keyMatches "id" "fhirId".toList = false := by decide
    have h2 : keyMatches "givenName" "fhirId".toList = false := by decide
    have h3 : keyMatches "familyName" "fhirId".toList = false := by decide
    have h4 : keyMatches "birthDate" "fhirId".toList = false := by decide
    have h5 : keyMatches "gender" "fhirId".toList = false := by decide
    simp only [Patient.setField, h1, h2, h3, h4, h5, Bool.false_eq_true, if_false]
  · intro p raw val
    have h1 : keyMatches "id" "id".toList = true := by decide
    simp only [Patient.setField, h1, if_true, decodeString, Except.map]

/-- C6, as stated, fails: with a message for tenant A received, an unset credential, or
a failing `mongo.Connect`, makes `getDbClient` call `log.Fatalf`, which ends the process
in the middle of the iteration. -/
theorem processResourcesOnce_exits_in_getDbClient :
    (processResourcesOnce (noCredentialsEnv [fixtureMsg]) "queue" World.initial).1 =
      Outcome.fatal ∧
    (processResourcesOnce (noCredentialsEnv [fixtureMsg]) "queue" World.initial).2.trace.getLast? =
      some (Event.logFatalf "DB credentials must be provided!" []) ∧
    (processResourcesOnce (refusingEnv [fixtureMsg]) "queue" World.initial).1 = Outcome.fatal ∧
    (processResourcesOnce (refusingEnv [fixtureMsg]) "queue" World.initial).2.trace.getLast? =
      some (Event.logFatalf "Failed to connect to Database: %v"
        [Arg.err (GoError.remote "refused")]) := by
  refine ⟨rfl, rfl, rfl, rfl⟩

/-- C6, amended: one iteration ends the process through `log.Fatalf` exactly when a
message with a message id and a known routing key was received and a datastore
credential is unset or `mongo.Connect` fails; it panics only on a received message that
lacks its id or its body; in every other case (the receive call fails, the poll is
empty, the routing key is unknown, `Ping` fails, the body does not decode, an insert
fails, everything succeeds) it logs how it went and reaches the top of the loop again. -/
theorem processResourcesOnce_outcome (env : Env) (q : String) (w : World) :
    ((processResourcesOnce env q w).1 = Outcome.fatal ↔
      ∃ m ms id, env.receiveMessage w.tick q = .ok (m :: ms) ∧ m.MessageId = some id ∧
        getDatabaseName (messageGroupIdOf m) ≠ "" ∧
        ((env.getenv "DB_URI" = "" ∨ env.getenv "DB_USER" = "" ∨ env.getenv "DB_PWD" = "") ∨
          ∃ e, env.mongoConnect (w.tick + 1) (env.getenv "DB_URI") (env.getenv "DB_USER")
            (env.getenv "DB_PWD") = .error e)) ∧
    ((processResourcesOnce env q w).1 = Outcome.panic →
      ∃ m ms, env.receiveMessage w.tick q = .ok (m :: ms) ∧
        (m.MessageId = none ∨ m.Body = none)) ∧
    ((processResourcesOnce env q w).1 = Outcome.ret () →
      ∃ format args,
        Event.logPrintf format args ∈ newEvents w (processResourcesOnce env q w).2 ∧
        format ∈ closingLogs) := by
  cases hR : env.receiveMessage w.tick q with
  | error e =>
    rw [processResourcesOnce_error env q w e hR]
    refine ⟨by simp, by simp, fun _ => ⟨"Erro ao consumir mensagem: %v", [Arg.err e], ?_, ?_⟩⟩
    · simp [newEvents]
    · simp [closingLogs]
  | ok msgs =>
    cases msgs with
    | nil =>
      rw [processResourcesOnce_empty env q w hR]
      refine ⟨by simp, by simp, fun _ => ⟨"No message available", [], ?_, ?_⟩⟩
      · simp [newEvents]
      · simp [closingLogs]
    | cons m ms =>
      rw [processResourcesOnce_some env q w m ms hR]
      refine ⟨?_, ?_, ?_⟩
      · rw [processMessage_fatal_iff]
        constructor
        · rintro ⟨id, h1, h2, h3⟩
          exact ⟨m, ms, id, rfl, h1, h2, h3⟩
        · rintro ⟨m1, ms1, id, h0, h1, h2, h3⟩
          injection h0 with h0
          injection h0 with hm _
          subst hm
          exact ⟨id, h1, h2, h3⟩
      · intro hp
        exact ⟨m, ms, rfl, processMessage_panic env m _ hp⟩
      · intro hr
        obtain ⟨format, args, hmem, hfmt⟩ := processMessage_ret_logs env m _ hr
        obtain ⟨es, hes, -⟩ := processMessage_extends env m
          ⟨w.tick + 1, w.trace ++ [Event.logPrintf "Etapa 1 - Consumindo MSG" [],
            Event.logPrintf "Consuming one message..." [], Event.receiveMessage q 1 5], w.store⟩
        exact ⟨format, args, mem_newEvents_of_mem w _ _ _ es _ rfl hes hmem, hfmt⟩

/-- Witness of C6 amended: the test fixture against an outside in which every call
succeeds goes through the whole body and back to the top of the loop. -/
theorem processResourcesOnce_outcome_witness :
    (processResourcesOnce (healthyEnv [fixtureMsg]) "queue" World.initial).1 = Outcome.ret () ∧
    ∃ format args,
      Event.logPrintf format args ∈ newEvents World.initial
        (processResourcesOnce (healthyEnv [fixtureMsg]) "queue" World.initial).2 ∧
      format ∈ closingLogs :=
  ⟨rfl, (processResourcesOnce_outcome (healthyEnv [fixtureMsg]) "queue" World.initial).2.2 rfl⟩

/-- C7: when the poll returns no message, or a message whose routing key names no tenant,
the iteration makes no call to the datastore (no `mongo.Connect`, no `Ping`, no
`InsertOne`), does not go through `getDbClient`, and leaves the store as it was. -/
theorem processResourcesOnce_no_datastore_contact (env : Env) (q : String) (w : World)
    (h : env.receiveMessage w.tick q = .ok [] ∨
      ∃ m ms, env.receiveMessage w.tick q = .ok (m :: ms) ∧
        getDatabaseName (messageGroupIdOf m) = "") :
    connects (newEvents w (processResourcesOnce env q w).2) = [] ∧
    inserts (newEvents w (processResourcesOnce env q w).2) = [] ∧
    datastoreCalls (newEvents w (processResourcesOnce env q w).2) = [] ∧
    (processResourcesOnce env q w).2.store = w.store ∧
    (processResourcesOnce env q w).1 ≠ Outcome.fatal := by
  rcases h with h | ⟨m, ms, hR, hK⟩
  · rw [processResourcesOnce_empty env q w h]
    simp [newEvents, connects, inserts, datastoreCalls, Event.isDatastoreCall]
  · rw [processResourcesOnce_some env q w m ms hR]
    cases hI : m.MessageId with
    | none =>
      rw [processMessage_nil_id env m _ hI]
      simp [newEvents, connects, inserts, datastoreCalls, Event.isDatastoreCall]
    | some id =>
      rw [processMessage_unknown env m _ id hI hK]
      simp [newEvents, connects, inserts, datastoreCalls, Event.isDatastoreCall]

/-- Witness of C7: a message with routing key "999". -/
theorem processResourcesOnce_no_datastore_contact_witness :
    getDatabaseName (messageGroupIdOf unknownKeyMsg) = "" ∧
    connects (newEvents World.initial
      (processResourcesOnce (healthyEnv [unknownKeyMsg]) "queue" World.initial).2) = [] ∧
    inserts (newEvents World.initial
      (processResourcesOnce (healthyEnv [unknownKeyMsg]) "queue" World.initial).2) = [] ∧
    datastoreCalls (newEvents World.initial
      (processResourcesOnce (healthyEnv [unknownKeyMsg]) "queue" World.initial).2) = [] ∧
    (processResourcesOnce (healthyEnv [unknownKeyMsg]) "queue" World.initial).2.store =
      World.initial.store ∧
    (processResourcesOnce (healthyEnv [unknownKeyMsg]) "queue" World.initial).1 ≠ Outcome.fatal :=
  ⟨rfl, processResourcesOnce_no_datastore_contact (healthyEnv [unknownKeyMsg]) "queue"
    World.initial (Or.inr ⟨unknownKeyMsg, [], rfl, rfl⟩)⟩

/-- C8: one iteration sleeps once for 5 seconds when the receive call fails, once for
1 second when it returns no message, and not at all when it returns a message, however
the handling of that message ends. -/
theorem processResourcesOnce_pacing (env : Env) (q : String) (w : World) :
    (∀ e, env.receiveMessage w.tick q = .error e →
      sleeps (newEvents w (processResourcesOnce env q w).2) = [5 * Second]) ∧
    (env.receiveMessage w.tick q = .ok [] →
      sleeps (newEvents w (processResourcesOnce env q w).2) = [1 * Second]) ∧
    (∀ m ms, env.receiveMessage w.tick q = .ok (m :: ms) →
      sleeps (newEvents w (processResourcesOnce env q w).2) = []) ∧
    5 * Second = 5000000000 ∧ 1 * Second = 1000000000 := by
  refine ⟨?_, ?_, ?_, rfl, rfl⟩
  · intro e h
    rw [processResourcesOnce_error env q w e h]
    simp [newEvents, sleeps]
  · intro h
    rw [processResourcesOnce_empty env q w h]
    simp [newEvents, sleeps]
  · intro m ms h
    rw [processResourcesOnce_some env q w m ms h]
    obtain ⟨es, hes, hs⟩ := processMessage_extends env m
      ⟨w.tick + 1, w.trace ++ [Event.logPrintf "Etapa 1 - Consumindo MSG" [],
        Event.logPrintf "Consuming one message..." [], Event.receiveMessage q 1 5], w.store⟩
    have h3 : (processMessage env m
        ⟨w.tick + 1, w.trace ++ [Event.logPrintf "Etapa 1 - Consumindo MSG" [],
          Event.logPrintf "Consuming one message..." [], Event.receiveMessage q 1 5],
          w.store⟩).2.trace =
        w.trace ++ ([Event.logPrintf "Etapa 1 - Consumindo MSG" [],
          Event.logPrintf "Consuming one message..." [], Event.receiveMessage q 1 5] ++ es) := by
      rw [hes, List.append_assoc]
    rw [newEvents_of_trace h3, sleeps_append, hs]
    rfl

/-- Witness of C8: a failing receive call, an empty poll, and the test fixture received
and stored. -/
theorem processResourcesOnce_pacing_witness :
    sleeps (newEvents World.initial
      (processResourcesOnce unreachableQueueEnv "queue" World.initial).2) = [5000000000] ∧
    sleeps (newEvents World.initial
      (processResourcesOnce (healthyEnv []) "queue" World.initial).2) = [1000000000] ∧
    sleeps (newEvents World.initial
      (processResourcesOnce (healthyEnv [fixtureMsg]) "queue" World.initial).2) = [] :=
  ⟨(processResourcesOnce_pacing unreachableQueueEnv "queue" World.initial).1
      (GoError.remote "timeout") rfl,
    (processResourcesOnce_pacing (healthyEnv []) "queue" World.initial).2.1 rfl,
    (processResourcesOnce_pacing (healthyEnv [fixtureMsg]) "queue" World.initial).2.2.1
      fixtureMsg [] rfl⟩

/-- C9, as stated, fails: for a message with a known routing key whose body is not JSON,
the iteration has called `mongo.Connect` and `Ping` before `saveResource` finds out that
the body does not decode. -/
theorem processResourcesOnce_connects_before_decoding :
    getDatabaseName (messageGroupIdOf undecodableMsg) = "fhir_hca" ∧
    undecodableMsg.Body = some "invalid json" ∧
    jsonUnmarshal "invalid json" = .error JsonError.malformed ∧
    (processResourcesOnce (healthyEnv [undecodableMsg]) "queue" World.initial).1 =
      Outcome.ret () ∧
    connects (newEvents World.initial
      (processResourcesOnce (healthyEnv [undecodableMsg]) "queue" World.initial).2) =
      [("value-of-DB_URI", "value-of-DB_USER", "value-of-DB_PWD")] ∧
    connects (newEvents World.initial
      (processResourcesOnce (healthyEnv [undecodableMsg]) "queue" World.initial).2) ≠ [] := by
  refine ⟨rfl, rfl, rfl, rfl, rfl, ?_⟩
  decide

/-- C9, amended: connecting precedes decoding.  For a received message with a message
id and a known routing key whose body does not decode, with the credentials set and
`mongo.Connect` and `Ping` succeeding, the iteration does the following and nothing
else, in this order: it polls, reports the message, calls `mongo.Connect` and `Ping`,
then logs the decode failure twice (in `saveResource` and in the loop) and reaches the
top of the loop again; it makes no insert and leaves the store as it was. -/
theorem processResourcesOnce_decode_failure_after_connect (env : Env) (q : String)
    (w : World) (m : Message) (ms : List Message) (id body : String) (err : JsonError)
    (client : MongoClient)
    (hR : env.receiveMessage w.tick q = .ok (m :: ms))
    (hI : m.MessageId = some id)
    (hK : getDatabaseName (messageGroupIdOf m) ≠ "")
    (hB : m.Body = some body)
    (hJ : jsonUnmarshalWith env.parseTime body = .error err)
    (hURI : env.getenv "DB_URI" ≠ "") (hUser : env.getenv "DB_USER" ≠ "")
    (hPwd : env.getenv "DB_PWD" ≠ "")
    (hConn : env.mongoConnect (w.tick + 1) (env.getenv "DB_URI") (env.getenv "DB_USER")
      (env.getenv "DB_PWD") = .ok client)
    (hPing : env.ping (w.tick + 2) client = none) :
    (processResourcesOnce env q w).1 = Outcome.ret () ∧
    newEvents w (processResourcesOnce env q w).2 =
      [Event.logPrintf "Etapa 1 - Consumindo MSG" [],
       Event.logPrintf "Consuming one message..." [],
       Event.receiveMessage q 1 5,
       Event.logPrintf "Etapa 2 - GroupId: %s" [Arg.str (messageGroupIdOf m)],
       Event.stdout "\n=== METADADOS DA MENSAGEM ===\n" [],
       Event.stdout "ID: %s\n" [Arg.str id],
       Event.logPrintf "Etapa 3 - Conectando-se ao Database" [],
       Event.connect (env.getenv "DB_URI") (env.getenv "DB_USER") (env.getenv "DB_PWD"),
       Event.ping client,
       Event.logPrintf "Etapa 4 - Registrando Resource " [],
       Event.logPrintf "erro ao decodificar mensagem: %v" [Arg.err (GoError.json err)],
       Event.logPrintf "Erro ao processar mensagem: %v" [Arg.err (GoError.json err)]] ∧
    connects (newEvents w (processResourcesOnce env q w).2) =
      [(env.getenv "DB_URI", env.getenv "DB_USER", env.getenv "DB_PWD")] ∧
    inserts (newEvents w (processResourcesOnce env q w).2) = [] ∧
    (processResourcesOnce env q w).2.store = w.store := by
  rw [processResourcesOnce_some env q w m ms hR]
  unfold processMessage
  simp only [hI, hK, if_false]
  have hg := getDbClient_ok env
    (logPrintf "Etapa 3 - Conectando-se ao Database" []
      (((logPrintf "Etapa 2 - GroupId: %s" [Arg.str (messageGroupIdOf m)]
        ⟨w.tick + 1, w.trace ++ [Event.logPrintf "Etapa 1 - Consumindo MSG" [],
          Event.logPrintf "Consuming one message..." [], Event.receiveMessage q 1 5],
          w.store⟩).emit
        (Event.stdout "\n=== METADADOS DA MENSAGEM ===\n" [])).emit
        (Event.stdout "ID: %s\n" [Arg.str id])))
    client hURI hUser hPwd hConn hPing
  rw [hg]
  simp only []
  rw [saveResource_decode_error _ _ _ _ _ _ _ hB hJ]
  simp [newEvents, logPrintf, World.emit, connects, inserts]

/-- Witness of C9 amended: a message for tenant A whose body is `invalid json`. -/
theorem processResourcesOnce_decode_failure_after_connect_witness :
    getDatabaseName (messageGroupIdOf undecodableMsg) ≠ "" ∧
    jsonUnmarshal "invalid json" = .error JsonError.malformed ∧
    (processResourcesOnce (healthyEnv [undecodableMsg]) "queue" World.initial).1 =
      Outcome.ret () ∧
    inserts (newEvents World.initial
      (processResourcesOnce (healthyEnv [undecodableMsg]) "queue" World.initial).2) = [] :=
  ⟨by decide, rfl,
    (processResourcesOnce_decode_failure_after_connect (healthyEnv [undecodableMsg]) "queue"
      World.initial undecodableMsg [] "msg-1" "invalid json" JsonError.malformed ⟨1⟩
      rfl rfl (by decide) rfl rfl (by decide) (by decide) (by decide) rfl rfl).1,
    (processResourcesOnce_decode_failure_after_connect (healthyEnv [undecodableMsg]) "queue"
      World.initial undecodableMsg [] "msg-1" "invalid json" JsonError.malformed ⟨1⟩
      rfl rfl (by decide) rfl rfl (by decide) (by decide) (by decide) rfl rfl).2.2.2.1⟩

end FhirWorker
